import Mathlib

/- Shallow embedding of the citation_style_detector repository (core modules
   detector.py, extractor.py, validator.py, patterns.py) together with proofs
   about the behaviour its specification describes.  The repository is
   regex-driven, so the embedding starts with an executable model of the
   subset of Python `re` that the sources use: a pattern parser producing a
   syntax tree, and a backtracking matcher with Python's leftmost /
   first-alternative / greedy priority, non-overlapping scanning (`findall`,
   `finditer`, `search`, `match`, `sub`) and named capture groups.  Python
   floats produced by `count / total` are modelled as rationals; Python dicts
   whose keys are citation-style names are modelled as insertion-ordered
   association lists. -/

namespace Cite

/-- Characters treated as whitespace by the ASCII fragment of Python regex
`\s` and of `str.strip`: space, tab, newline, carriage return, vertical tab,
form feed. -/
def pyWS (c : Char) : Bool :=
  c = ' ' || c = '\t' || c = '\n' || c = '\r' || c = '\x0b' || c = '\x0c'

/-- ASCII lower-casing, the fragment of Python `str.lower` exercised by the
sources (catalog patterns and all claim inputs are ASCII). -/
def asciiLower (c : Char) : Char :=
  if 'A' ≤ c && c ≤ 'Z' then Char.ofNat (c.toNat + 32) else c

/-- ASCII upper-casing, used for IGNORECASE class matching. -/
def asciiUpper (c : Char) : Char :=
  if 'a' ≤ c && c ≤ 'z' then Char.ofNat (c.toNat - 32) else c

/-- Syntax tree for the subset of Python regular expressions used by the
repository: literals, character classes (lists of inclusive ranges),
concatenation, alternation, greedy and lazy star and option, capture groups,
the dot, and the `^` / `$` anchors.  `x{m,n}` counted repetition is expanded
during parsing and `x+` is parsed as `x x*`. -/
inductive RE where
  | eps : RE
  | dot : RE
  | bol : RE
  | eol : RE
  | lit (c : Char) : RE
  | cls (neg : Bool) (ranges : List (Char × Char)) : RE
  | cat (a b : RE) : RE
  | alt (a b : RE) : RE
  | star (lz : Bool) (r : RE) : RE
  | opt (lz : Bool) (r : RE) : RE
  | grp (nm : String) (r : RE) : RE
deriving Repr, DecidableEq, Inhabited

/-- Structural size of a pattern, used to provision matcher fuel. -/
def sizeRE : RE → Nat
  | .eps | .dot | .bol | .eol | .lit _ | .cls _ _ => 1
  | .cat a b => sizeRE a + sizeRE b + 1
  | .alt a b => sizeRE a + sizeRE b + 1
  | .star _ r => sizeRE r + 1
  | .opt _ r => sizeRE r + 1
  | .grp _ r => sizeRE r + 1

/-- Ranges denoted by the `\d` escape. -/
def digitRanges : List (Char × Char) := [('0', '9')]

/-- Ranges denoted by the `\s` escape (ASCII fragment). -/
def wsRanges : List (Char × Char) :=
  [(' ', ' '), ('\t', '\t'), ('\n', '\n'), ('\r', '\r'),
   ('\x0b', '\x0b'), ('\x0c', '\x0c')]

/-- Ranges denoted by the `\w` escape (ASCII fragment). -/
def wordRanges : List (Char × Char) :=
  [('a', 'z'), ('A', 'Z'), ('0', '9'), ('_', '_')]

/-- Value of a hexadecimal digit. -/
def hexVal (c : Char) : Option Nat :=
  if '0' ≤ c && c ≤ '9' then some (c.toNat - 48)
  else if 'a' ≤ c && c ≤ 'f' then some (c.toNat - 87)
  else if 'A' ≤ c && c ≤ 'F' then some (c.toNat - 55)
  else none

/-- Parse one item of a character class: either a concrete character
(usable as a range endpoint) or a bundle of ranges from a class escape. -/
def parseClassAtom : List Char → Option ((Char ⊕ List (Char × Char)) × List Char)
  | [] => none
  | '\\' :: t =>
    match t with
    | 'd' :: t2 => some (Sum.inr digitRanges, t2)
    | 's' :: t2 => some (Sum.inr wsRanges, t2)
    | 'w' :: t2 => some (Sum.inr wordRanges, t2)
    | 'n' :: t2 => some (Sum.inl '\n', t2)
    | 't' :: t2 => some (Sum.inl '\t', t2)
    | 'r' :: t2 => some (Sum.inl '\r', t2)
    | 'u' :: a :: b :: c :: d :: t2 =>
      match hexVal a, hexVal b, hexVal c, hexVal d with
      | some x, some y, some z, some w =>
        some (Sum.inl (Char.ofNat (((x * 16 + y) * 16 + z) * 16 + w)), t2)
      | _, _, _, _ => none
    | c :: t2 => if c.isAlpha || c.isDigit then none else some (Sum.inl c, t2)
    | [] => none
  | c :: t => some (Sum.inl c, t)

/-- Parse the items of a character class up to the closing bracket. -/
def parseClassItems : Nat → List Char → Option (List (Char × Char) × List Char)
  | 0, _ => none
  | _ + 1, ']' :: t => some ([], t)
  | f + 1, s =>
    match parseClassAtom s with
    | none => none
    | some (Sum.inr rs, t) =>
      match parseClassItems f t with
      | some (rest, t2) => some (rs ++ rest, t2)
      | none => none
    | some (Sum.inl c, t) =>
      match t with
      | '-' :: ']' :: t2 => some ([(c, c), ('-', '-')], t2)
      | '-' :: t2 =>
        match parseClassAtom t2 with
        | some (Sum.inl c2, t3) =>
          match parseClassItems f t3 with
          | some (rest, t4) => some ((c, c2) :: rest, t4)
          | none => none
        | _ => none
      | _ =>
        match parseClassItems f t with
        | some (rest, t2) => some ((c, c) :: rest, t2)
        | none => none

/-- n-fold concatenation, used to expand counted repetition. -/
def powCat : Nat → RE → RE
  | 0, _ => .eps
  | 1, r => r
  | n + 2, r => .cat r (powCat (n + 1) r)

/-- n optional copies, used to expand the upper half of `x{m,n}`. -/
def optsCat : Nat → RE → RE
  | 0, _ => .eps
  | n + 1, r => .cat (.opt false r) (optsCat n r)

/-- Leading decimal digits of a character list. -/
def takeDigits (s : List Char) : List Char × List Char :=
  (s.takeWhile (fun c => c.isDigit), s.dropWhile (fun c => c.isDigit))

/-- Decimal value of a digit list. -/
def digitsToNat (l : List Char) : Nat :=
  l.foldl (fun a c => a * 10 + (c.toNat - 48)) 0

/-- Apply a trailing quantifier (`*`, `+`, `?`, their lazy variants, and
counted repetition) to a parsed atom. -/
def applyQuant (r : RE) (s : List Char) : RE × List Char :=
  match s with
  | '*' :: '?' :: t => (.star true r, t)
  | '*' :: t => (.star false r, t)
  | '+' :: '?' :: t => (.cat r (.star true r), t)
  | '+' :: t => (.cat r (.star false r), t)
  | '?' :: '?' :: t => (.opt true r, t)
  | '?' :: t => (.opt false r, t)
  | '\x7b' :: t =>
    let ds := takeDigits t
    if ds.1.isEmpty then (r, s)
    else
      let m := digitsToNat ds.1
      match ds.2 with
      | '\x7d' :: t2 => (powCat m r, t2)
      | ',' :: t2 =>
        let ds2 := takeDigits t2
        match ds2.2 with
        | '\x7d' :: t4 =>
          if ds2.1.isEmpty then (.cat (powCat m r) (.star false r), t4)
          else (.cat (powCat m r) (optsCat (digitsToNat ds2.1 - m) r), t4)
        | _ => (r, s)
      | _ => (r, s)
  | _ => (r, s)

/-- Parse an escape sequence outside a character class. -/
def parseEscAtom : List Char → Option (RE × List Char)
  | [] => none
  | 'd' :: t => some (.cls false digitRanges, t)
  | 's' :: t => some (.cls false wsRanges, t)
  | 'w' :: t => some (.cls false wordRanges, t)
  | 'D' :: t => some (.cls true digitRanges, t)
  | 'S' :: t => some (.cls true wsRanges, t)
  | 'W' :: t => some (.cls true wordRanges, t)
  | 'n' :: t => some (.lit '\n', t)
  | 't' :: t => some (.lit '\t', t)
  | 'r' :: t => some (.lit '\r', t)
  | 'u' :: a :: b :: c :: d :: t2 =>
    match hexVal a, hexVal b, hexVal c, hexVal d with
    | some x, some y, some z, some w =>
      some (.lit (Char.ofNat (((x * 16 + y) * 16 + z) * 16 + w)), t2)
    | _, _, _, _ => none
  | c :: t => if c.isAlpha || c.isDigit then none else some (.lit c, t)

/-- Smart concatenation used while folding a sequence of pieces. -/
def catS : RE → RE → RE
  | .eps, r => r
  | a, r => .cat a r

/-- Recursive-descent parser for the regex subset.  `mode 0` parses an
alternation, `mode 1` a sequence (with accumulator `acc`), any other mode a
single piece (atom plus optional quantifier).  `cnt` numbers capture groups
in order of their opening parenthesis as Python does; unnamed groups are
keyed by the decimal string of their number.  Fuel makes the recursion
structural so that proofs can evaluate the parser. -/
def pgo : Nat → Nat → RE → Nat → List Char → Option (RE × Nat × List Char)
  | 0, _, _, _, _ => none
  | f + 1, 0, _, cnt, s =>
    match pgo f 1 .eps cnt s with
    | none => none
    | some (r, c1, rest) =>
      match rest with
      | '|' :: rest2 =>
        match pgo f 0 .eps c1 rest2 with
        | some (r2, c2, rest3) => some (.alt r r2, c2, rest3)
        | none => none
      | _ => some (r, c1, rest)
  | f + 1, 1, acc, cnt, s =>
    match s with
    | [] => some (acc, cnt, [])
    | ')' :: _ => some (acc, cnt, s)
    | '|' :: _ => some (acc, cnt, s)
    | _ =>
      match pgo f 2 .eps cnt s with
      | none => none
      | some (p, c1, rest) => pgo f 1 (catS acc p) c1 rest
  | f + 1, _, _, cnt, s =>
    match
      (match s with
       | '(' :: '?' :: ':' :: t =>
         (match pgo f 0 .eps cnt t with
          | some (r, c1, ')' :: t2) => some (r, c1, t2)
          | _ => none)
       | '(' :: '?' :: 'P' :: '<' :: t =>
         let nm := t.takeWhile (fun c => c ≠ '>')
         (match t.dropWhile (fun c => c ≠ '>') with
          | '>' :: t2 =>
            (match pgo f 0 .eps (cnt + 1) t2 with
             | some (r, c1, ')' :: t3) => some (.grp (String.mk nm) r, c1, t3)
             | _ => none)
          | _ => none)
       | '(' :: '?' :: _ => none
       | '(' :: t =>
         (match pgo f 0 .eps (cnt + 1) t with
          | some (r, c1, ')' :: t2) => some (.grp (Nat.repr cnt) r, c1, t2)
          | _ => none)
       | '[' :: '^' :: t =>
         (match parseClassItems t.length t with
          | some (rs, t2) => some (.cls true rs, cnt, t2)
          | none => none)
       | '[' :: t =>
         (match parseClassItems t.length t with
          | some (rs, t2) => some (.cls false rs, cnt, t2)
          | none => none)
       | '.' :: t => some (.dot, cnt, t)
       | '^' :: t => some (.bol, cnt, t)
       | '$' :: t => some (.eol, cnt, t)
       | '\\' :: t =>
         (match parseEscAtom t with
          | some (r, t2) => some (r, cnt, t2)
          | none => none)
       | '*' :: _ => none
       | '+' :: _ => none
       | '?' :: _ => none
       | ')' :: _ => none
       | c :: t => some (.lit c, cnt, t)
       | [] => none)
    with
    | none => none
    | some (r, c1, t) =>
      let q := applyQuant r t
      some (q.1, c1, q.2)

/-- Strip occurrences of the global `(?i)` inline flag.  The sources place
it at the front of header patterns and, through f-string composition, also
in the middle of composed patterns; before Python 3.11 both set IGNORECASE
globally, which is the semantics modelled here. -/
def stripCI : List Char → Bool × List Char
  | '(' :: '?' :: 'i' :: ')' :: t =>
    let r := stripCI t
    (true, r.2)
  | c :: t =>
    let r := stripCI t
    (r.1, c :: r.2)
  | [] => (false, [])

/-- Model of `re.compile`: `none` models `re.error`.  Global `(?i)` flags
are extracted first; the returned Bool is the IGNORECASE flag. -/
def compileRE (p : String) : Option (Bool × RE) :=
  let s := stripCI p.toList
  match pgo (4 * s.2.length + 16) 0 .eps 1 s.2 with
  | some (r, _, []) => some (s.1, r)
  | _ => none

/-- Capture environments: named (or numbered) groups to matched text. -/
abbrev Caps := List (String × String)

/-- Record (or overwrite) a capture, keeping first-binding order. -/
def setCap : Caps → String → String → Caps
  | [], n, v => [(n, v)]
  | (n0, v0) :: rest, n, v =>
    if n0 = n then (n, v) :: rest else (n0, v0) :: setCap rest n v

/-- Look up a capture by group name. -/
def getCap (cs : Caps) (n : String) : Option String :=
  match cs.find? (fun kv => kv.1 = n) with
  | some kv => some kv.2
  | none => none

/-- Does a character fall in one of the class ranges? -/
def charInRanges (c : Char) : List (Char × Char) → Bool
  | [] => false
  | (lo, hi) :: rs => (lo ≤ c && c ≤ hi) || charInRanges c rs

/-- Literal match, honouring IGNORECASE. -/
def litMatch (ci : Bool) (p c : Char) : Bool :=
  p = c || (ci && asciiLower p = asciiLower c)

/-- Class match, honouring negation and IGNORECASE. -/
def clsMatch (ci neg : Bool) (rs : List (Char × Char)) (c : Char) : Bool :=
  let base := charInRanges c rs ||
    (ci && (charInRanges (asciiLower c) rs || charInRanges (asciiUpper c) rs))
  if neg then !base else base

/-- One-position backtracking matcher in continuation-passing style.  The
continuation receives the character preceding the remaining input, the
remaining input, and the capture environment.  Alternatives are tried left
to right and greedy operators longest-first, mirroring Python's
backtracking priority; a repetition body that consumes nothing stops the
repetition, as in Python.  Fuel bounds the depth of the search and the
wrappers supply enough for the search to be exhaustive. -/
def mat (ci ml : Bool) :
    Nat → RE → Option Char → List Char → Caps →
    (Option Char → List Char → Caps → Option (Option Char × List Char × Caps)) →
    Option (Option Char × List Char × Caps)
  | 0, _, _, _, _, _ => none
  | f + 1, r, prev, s, caps, k =>
    match r with
    | .eps => k prev s caps
    | .dot =>
      match s with
      | [] => none
      | c :: rest => if c = '\n' then none else k (some c) rest caps
    | .lit c =>
      match s with
      | [] => none
      | c2 :: rest => if litMatch ci c c2 then k (some c2) rest caps else none
    | .cls neg rs =>
      match s with
      | [] => none
      | c2 :: rest => if clsMatch ci neg rs c2 then k (some c2) rest caps else none
    | .bol =>
      match prev with
      | none => k prev s caps
      | some c => if ml && c = '\n' then k prev s caps else none
    | .eol =>
      match s with
      | [] => k prev s caps
      | c :: rest => if c = '\n' && (ml || rest.isEmpty) then k prev s caps else none
    | .cat a b => mat ci ml f a prev s caps fun p2 s2 cp2 => mat ci ml f b p2 s2 cp2 k
    | .alt a b =>
      match mat ci ml f a prev s caps k with
      | some res => some res
      | none => mat ci ml f b prev s caps k
    | .opt lz a =>
      if lz then
        match k prev s caps with
        | some res => some res
        | none => mat ci ml f a prev s caps k
      else
        match mat ci ml f a prev s caps k with
        | some res => some res
        | none => k prev s caps
    | .star lz a =>
      if lz then
        match k prev s caps with
        | some res => some res
        | none =>
          mat ci ml f a prev s caps fun p2 s2 cp2 =>
            if s2.length < s.length then mat ci ml f (.star lz a) p2 s2 cp2 k else none
      else
        match
          mat ci ml f a prev s caps fun p2 s2 cp2 =>
            if s2.length < s.length then mat ci ml f (.star lz a) p2 s2 cp2 k else none
        with
        | some res => some res
        | none => k prev s caps
    | .grp nm a =>
      mat ci ml f a prev s caps fun p2 s2 cp2 =>
        k p2 s2 (setCap cp2 nm (String.mk (s.take (s.length - s2.length))))

/-- Fuel sufficient for an exhaustive backtracking search. -/
def matFuel (r : RE) (s : List Char) : Nat := (sizeRE r + 4) * (s.length + 4)

/-- Attempt the leftmost match at this position.  On success returns the
number of consumed characters, the new preceding character, the rest, and
the captures. -/
def matchHere (ci ml : Bool) (r : RE) (prev : Option Char) (s : List Char) :
    Option (Nat × Option Char × List Char × Caps) :=
  match mat ci ml (matFuel r s) r prev s [] (fun p2 s2 cp2 => some (p2, s2, cp2)) with
  | none => none
  | some (p2, s2, cp2) => some (s.length - s2.length, p2, s2, cp2)

/-- Scan for all non-overlapping matches (the semantics of `re.finditer`):
advance past each nonempty match, and by one character after an empty
match or a failure. -/
def scanAll (ci ml : Bool) (r : RE) : Nat → Option Char → List Char → List (String × Caps)
  | 0, _, _ => []
  | f + 1, prev, s =>
    match matchHere ci ml r prev s with
    | some (n, p2, s2, cp2) =>
      if n = 0 then
        ("", cp2) ::
          (match s with
           | [] => []
           | c :: rest => scanAll ci ml r f (some c) rest)
      else (String.mk (s.take n), cp2) :: scanAll ci ml r f p2 s2
    | none =>
      match s with
      | [] => []
      | c :: rest => scanAll ci ml r f (some c) rest

/-- First match position (the semantics of `re.search`): start index,
matched text and captures. -/
def searchIdx (ci ml : Bool) (r : RE) : Nat → Nat → Option Char → List Char →
    Option (Nat × String × Caps)
  | 0, _, _, _ => none
  | f + 1, idx, prev, s =>
    match matchHere ci ml r prev s with
    | some (n, _, _, cp2) => some (idx, String.mk (s.take n), cp2)
    | none =>
      match s with
      | [] => none
      | c :: rest => searchIdx ci ml r f (idx + 1) (some c) rest

/-- Delete all non-overlapping matches (the semantics of
`re.sub(pattern, "", text)`). -/
def subAll (ci ml : Bool) (r : RE) : Nat → Option Char → List Char → List Char
  | 0, _, s => s
  | f + 1, prev, s =>
    match matchHere ci ml r prev s with
    | some (n, p2, s2, _) =>
      if n = 0 then
        match s with
        | [] => []
        | c :: rest => c :: subAll ci ml r f (some c) rest
      else subAll ci ml r f p2 s2
    | none =>
      match s with
      | [] => []
      | c :: rest => c :: subAll ci ml r f (some c) rest

/-- Model of `len(re.findall(pattern, text, flags))`; `ml` is the MULTILINE
flag.  A pattern outside the parsed subset yields 0 matches; every pattern
the sources use parses. -/
def reFindallCount (ml : Bool) (p : String) (text : String) : Nat :=
  match compileRE p with
  | some (ci, r) => (scanAll ci ml r (text.length + 1) none text.toList).length
  | none => 0

/-- Model of `re.finditer(pattern, text, flags)` as the list of
(matched text, captures). -/
def reFinditer (ml : Bool) (p : String) (text : String) : List (String × Caps) :=
  match compileRE p with
  | some (ci, r) => scanAll ci ml r (text.length + 1) none text.toList
  | none => []

/-- Model of `re.search`; `ciFlag` is a call-site IGNORECASE flag, OR-ed
with any `(?i)` inside the pattern. -/
def reSearch (ml ciFlag : Bool) (p : String) (text : String) :
    Option (Nat × String × Caps) :=
  match compileRE p with
  | some (ci, r) => searchIdx (ci || ciFlag) ml r (text.length + 1) 0 none text.toList
  | none => none

/-- Model of `re.match` (anchored at the start of the text). -/
def reMatchStart (ml : Bool) (p : String) (text : String) : Option (String × Caps) :=
  match compileRE p with
  | some (ci, r) =>
    match matchHere ci ml r none text.toList with
    | some (n, _, _, cp) => some (String.mk (text.toList.take n), cp)
    | none => none
  | none => none

/-- Model of `re.sub(pattern, "", text)`. -/
def reSubEmpty (ml : Bool) (p : String) (text : String) : String :=
  match compileRE p with
  | some (ci, r) => String.mk (subAll ci ml r (text.length + 1) none text.toList)
  | none => text


/-- Python `str.strip()` restricted to ASCII whitespace. -/
def pyStrip (s : String) : String :=
  String.mk (((s.toList.dropWhile fun c => pyWS c).reverse.dropWhile fun c => pyWS c).reverse)

/-- Association-list lookup modelling `dict.__getitem__` / `in`. -/
def assocFind (l : List (String × α)) (k : String) : Option α :=
  match l.find? (fun kv => kv.1 = k) with
  | some kv => some kv.2
  | none => none

/-- Association-list lookup modelling `dict.get(k, d)`. -/
def assocGetD (l : List (String × α)) (k : String) (d : α) : α :=
  (assocFind l k).getD d

/-- First-occurrence deduplication with an accumulator of already seen
elements; this is simultaneously the model of the `seen`-set loop of
`extract_in_text_citations` (extractor.py 218-224) and of `list(set(xs))`
up to the unspecified iteration order of a Python set. -/
def dedupAux [DecidableEq α] : List α → List α → List α
  | _, [] => []
  | seen, x :: rest =>
    if x ∈ seen then dedupAux seen rest else x :: dedupAux (x :: seen) rest

/-- Deduplicate keeping the first occurrence of each element. -/
def dedupKeepFirst [DecidableEq α] (l : List α) : List α := dedupAux [] l

/-- Code-point lexicographic string order (Python `str` comparison). -/
def lexLe : List Char → List Char → Bool
  | [], _ => true
  | _ :: _, [] => false
  | a :: as, b :: bs =>
    if a.toNat < b.toNat then true
    else if b.toNat < a.toNat then false
    else lexLe as bs

/-- Stable insertion into a sorted list under `lexLe`. -/
def insertLe (x : String) : List String → List String
  | [] => [x]
  | y :: ys => if lexLe x.toList y.toList then x :: y :: ys else y :: insertLe x ys

/-- Python `sorted` on strings: lexicographic by code point (insertion
sort; `sorted` is uniquely determined on lists without duplicates). -/
def pySortStrings (l : List String) : List String :=
  l.foldr insertLe []

/-- Python `str.split('\n')`: split at every newline, keeping empty
pieces. -/
def splitLinesAux : List Char → List Char → List String
  | [], acc => [String.mk acc.reverse]
  | c :: rest, acc =>
    if c = '\n' then String.mk acc.reverse :: splitLinesAux rest []
    else splitLinesAux rest (c :: acc)

def splitLines (s : String) : List String := splitLinesAux s.toList []

/-- The in-text citation pattern table built by
`CitationStyleDetector.__init__` (detector.py lines 32-98), in dict
insertion order. -/
def dInTextPatterns : List (String × List String) :=
  [("APA",
    ["\\((?P<author>[A-Za-z\\-]+(?:\\s[A-Za-z\\-]+)?(?: et al\\.)?),\\s(?P<year>\\d\x7b4\x7d)(?:,\\s(?P<pages>p\\.?\\s\\d+(?:-\\d+)?))?\\)",
     "\\((?P<author1>[A-Za-z\\-]+(?:\\s[A-Za-z\\-]+)?)\\s&\\s(?P<author2>[A-Za-z\\-]+(?:\\s[A-Za-z\\-]+)?),\\s(?P<year>\\d\x7b4\x7d)(?:,\\s(?P<pages>p\\.?\\s\\d+(?:-\\d+)?))?\\)",
     "\\((?P<author>[A-Za-z\\-]+(?:\\s[A-Za-z\\-]+)?)\\set\\sal\\.,\\s(?P<year>\\d\x7b4\x7d)(?:,\\s(?P<pages>p\\.?\\s\\d+(?:-\\d+)?))?\\)",
     "(?P<author>[A-Za-z\\-]+(?:\\s[A-Za-z\\-]+)?)\\s\\((?P<year>\\d\x7b4\x7d)(?:,\\s(?P<pages>p\\.?\\s\\d+(?:-\\d+)?))?\\)"]),
   ("MLA",
    ["\\((?P<author>[A-Za-z\\-]+(?:\\s[A-Za-z\\-]+)?(?: et al\\.)?) (?P<pages>\\d+(?:-\\d+)?)\\)",
     "\\((?P<author1>[A-Za-z\\-]+(?:\\s[A-Za-z\\-]+)?) and (?P<author2>[A-Za-z\\-]+(?:\\s[A-Za-z\\-]+)?) (?P<pages>\\d+(?:-\\d+)?)\\)",
     "(?P<author>[A-Za-z\\-]+(?:\\s[A-Za-z\\-]+)?(?: et al\\.)?) \\((?P<pages>\\d+(?:-\\d+)?)\\)"]),
   ("CHICAGO_AUTHOR_DATE",
    ["\\((?P<author>[A-Za-z\\-]+(?:\\s[A-Za-z\\-]+)?(?: et al\\.)?) (?P<year>\\d\x7b4\x7d)(?:, (?P<pages>\\d+(?:-\\d+)?))?\\)",
     "\\((?P<author1>[A-Za-z\\-]+(?:\\s[A-Za-z\\-]+)?) and (?P<author2>[A-Za-z\\-]+(?:\\s[A-Za-z\\-]+)?) (?P<year>\\d\x7b4\x7d)(?:, (?P<pages>\\d+(?:-\\d+)?))?\\)",
     "(?P<author>[A-Za-z\\-]+(?:\\s[A-Za-z\\-]+)?(?: et al\\.)?) \\((?P<year>\\d\x7b4\x7d)(?:, (?P<pages>\\d+(?:-\\d+)?))?\\)"]),
   ("CHICAGO_NOTES",
    ["^\\d+\\.\\s(?P<citation>.+)",
     "(?P<citation>(?:Ibid\\.|Op\\. cit\\.|Loc\\. cit\\.)(?:,\\s\\d+(?:-\\d+)?)?)"]),
   ("HARVARD",
    ["\\((?P<author>[A-Za-z\\-]+(?:\\s[A-Za-z\\-]+)?(?: et al\\.)?),\\s(?P<year>\\d\x7b4\x7d)(?:: (?P<pages>\\d+(?:-\\d+)?))?\\)",
     "(?P<author>[A-Za-z\\-]+(?:\\s[A-Za-z\\-]+)?(?: et al\\.)?) \\((?P<year>\\d\x7b4\x7d)(?:: (?P<pages>\\d+(?:-\\d+)?))?\\)"]),
   ("IEEE",
    ["\\[(?P<citation>\\d+(?:,\\s*\\d+)*)\\]"]),
   ("VANCOUVER",
    ["\\((?P<citation>\\d+(?:-\\d+)?)\\)",
     "(?P<citation>[\\u00B9\\u00B2\\u00B3\\u2070-\\u2079]+)"]),
   ("CSE",
    ["\\((?P<author>[A-Za-z\\-]+(?:\\s[A-Za-z\\-]+)?(?: et al\\.)?) (?P<year>\\d\x7b4\x7d)\\)",
     "(?P<author>[A-Za-z\\-]+(?:\\s[A-Za-z\\-]+)?(?: et al\\.)?) (?P<year>\\d\x7b4\x7d)"])]

/-- The full-citation pattern table built by
`CitationStyleDetector.__init__` (detector.py lines 101-163), in dict
insertion order. -/
def dFullCitationPatterns : List (String × List String) :=
  [("APA",
    ["(?P<author>[A-Za-z\\-]+,\\s[A-Z]\\.(?:\\s[A-Z]\\.)?)(?:,\\s[A-Za-z\\-]+,\\s[A-Z]\\.(?:\\s[A-Z]\\.)?)*(?:,?\\s&\\s[A-Za-z\\-]+,\\s[A-Z]\\.(?:\\s[A-Z]\\.)?)?\\s\\((?P<year>\\d\x7b4\x7d)\\)\\.\\s(?P<title>.+?)\\.\\s(?P<publisher>[A-Za-z\\s]+)\\.",
     "(?P<author>[A-Za-z\\-]+,\\s[A-Z]\\.(?:\\s[A-Z]\\.)?)(?:,\\s[A-Za-z\\-]+,\\s[A-Z]\\.(?:\\s[A-Z]\\.)?)*(?:,?\\s&\\s[A-Za-z\\-]+,\\s[A-Z]\\.(?:\\s[A-Z]\\.)?)?\\s\\((?P<year>\\d\x7b4\x7d)\\)\\.\\s(?P<title>.+?)\\.\\s(?P<journal>.+?),\\s(?P<volume>\\d+)(?:\\((?P<issue>\\d+)\\))?,\\s(?P<pages>\\d+-\\d+)\\.",
     "(?P<author>[A-Za-z\\-]+,\\s[A-Z]\\.(?:\\s[A-Z]\\.)?)(?:,\\s[A-Za-z\\-]+,\\s[A-Z]\\.(?:\\s[A-Z]\\.)?)*(?:,?\\s&\\s[A-Za-z\\-]+,\\s[A-Z]\\.(?:\\s[A-Z]\\.)?)?\\s\\((?P<year>\\d\x7b4\x7d)(?:,\\s[A-Za-z]+\\s\\d+)?\\)\\.\\s(?P<title>.+?)\\.\\s(?:Recuperado|Retrieved)(?:\\son|\\sde)\\s(?P<url>https?://[^\\s]+)"]),
   ("MLA",
    ["(?P<author>[A-Za-z\\-]+,\\s[A-Za-z\\s\\-]+)(?:,\\sand\\s[A-Za-z\\-]+,\\s[A-Za-z\\s\\-]+)*\\.\\s(?P<title>.+?)\\.\\s(?P<publisher>[A-Za-z\\s]+),\\s(?P<year>\\d\x7b4\x7d)\\.",
     "(?P<author>[A-Za-z\\-]+,\\s[A-Za-z\\s\\-]+)(?:,\\sand\\s[A-Za-z\\-]+,\\s[A-Za-z\\s\\-]+)*\\.\\s\"(?P<title>.+?)\\.\"\\s(?P<journal>.+?),\\svol\\.\\s(?P<volume>\\d+)(?:,\\sno\\.\\s(?P<issue>\\d+))?,\\s(?P<year>\\d\x7b4\x7d),\\spp\\.\\s(?P<pages>\\d+-\\d+)\\.",
     "(?P<author>[A-Za-z\\-]+,\\s[A-Za-z\\s\\-]+)(?:,\\sand\\s[A-Za-z\\-]+,\\s[A-Za-z\\s\\-]+)*\\.\\s\"(?P<title>.+?)\\.\"\\s(?P<site>.+?),\\s(?P<date>[A-Za-z\\.\\s\\d,]+),\\s(?P<url>https?://[^\\s]+)(?:\\.\\s(?:Accessed|Accedido)\\s(?P<access_date>[A-Za-z\\.\\s\\d,]+))?."]),
   ("CHICAGO",
    ["(?P<author>[A-Za-z\\-]+,\\s[A-Za-z\\s\\-]+)(?:,\\s[A-Za-z\\-]+,\\s[A-Za-z\\s\\-]+)*(?:,\\sand\\s[A-Za-z\\-]+,\\s[A-Za-z\\s\\-]+)?\\.\\s(?P<title>.+?)\\.\\s(?P<city>[A-Za-z\\s]+):\\s(?P<publisher>[A-Za-z\\s]+),\\s(?P<year>\\d\x7b4\x7d)\\.",
     "(?P<author>[A-Za-z\\-]+,\\s[A-Za-z\\s\\-]+)(?:,\\s[A-Za-z\\-]+,\\s[A-Za-z\\s\\-]+)*(?:,\\sand\\s[A-Za-z\\-]+,\\s[A-Za-z\\s\\-]+)?\\.\\s\"(?P<title>.+?)\\.\"\\s(?P<journal>.+?)\\s(?P<volume>\\d+),\\sno\\.\\s(?P<issue>\\d+)\\s\\((?P<year>\\d\x7b4\x7d)\\):\\s(?P<pages>\\d+-\\d+)\\.",
     "(?P<author>[A-Za-z\\-]+,\\s[A-Za-z\\s\\-]+)(?:,\\s[A-Za-z\\-]+,\\s[A-Za-z\\s\\-]+)*(?:,\\sand\\s[A-Za-z\\-]+,\\s[A-Za-z\\s\\-]+)?\\.\\s\"(?P<title>.+?)\\.\"\\s(?P<site>.+?)\\.\\s(?P<date>[A-Za-z\\.\\s\\d,]+)\\.\\s(?P<url>https?://[^\\s]+)\\."]),
   ("HARVARD",
    ["(?P<author>[A-Za-z\\-]+,\\s[A-Z]\\.)(?:,\\s[A-Za-z\\-]+,\\s[A-Z]\\.)*(?:\\sand\\s[A-Za-z\\-]+,\\s[A-Z]\\.)?\\s\\((?P<year>\\d\x7b4\x7d)\\)\\s(?P<title>.+?)\\.\\s(?P<city>[A-Za-z\\s]+):\\s(?P<publisher>[A-Za-z\\s]+)\\.",
     "(?P<author>[A-Za-z\\-]+,\\s[A-Z]\\.)(?:,\\s[A-Za-z\\-]+,\\s[A-Z]\\.)*(?:\\sand\\s[A-Za-z\\-]+,\\s[A-Z]\\.)?\\s\\((?P<year>\\d\x7b4\x7d)\\)\\s\\\x27(?P<title>.+?)\\\x27,\\s(?P<journal>.+?),\\s(?P<volume>\\d+)(?:\\((?P<issue>\\d+)\\))?,\\spp\\.\\s(?P<pages>\\d+-\\d+)\\.",
     "(?P<author>[A-Za-z\\-]+,\\s[A-Z]\\.)(?:,\\s[A-Za-z\\-]+,\\s[A-Z]\\.)*(?:\\sand\\s[A-Za-z\\-]+,\\s[A-Z]\\.)?\\s\\((?P<year>\\d\x7b4\x7d)\\)\\s(?P<title>.+?)\\s\\[Online\\]\\.\\s(?:Available|Disponible)(?:\\sat|\\sen):\\s(?P<url>https?://[^\\s]+)\\s\\[(?:Accessed|Accedido):\\s(?P<access_date>[A-Za-z\\.\\s\\d,]+)\\]"]),
   ("IEEE",
    ["\\[(?P<number>\\d+)\\]\\s(?P<author>[A-Z]\\.\\s[A-Za-z\\-]+)(?:,\\s[A-Z]\\.\\s[A-Za-z\\-]+)*(?:,\\sand\\s[A-Z]\\.\\s[A-Za-z\\-]+)?,\\s\"(?P<title>.+?)(?:,|\")(?:\\s(?P<journal>.+?),\\svol\\.\\s(?P<volume>\\d+),\\sno\\.\\s(?P<issue>\\d+),\\spp\\.\\s(?P<pages>\\d+-\\d+),\\s(?P<date>[A-Za-z\\.\\s\\d,]+))?",
     "\\[(?P<number>\\d+)\\]\\s(?P<author>[A-Z]\\.\\s[A-Za-z\\-]+)(?:,\\s[A-Z]\\.\\s[A-Za-z\\-]+)*(?:,\\sand\\s[A-Z]\\.\\s[A-Za-z\\-]+)?,\\s(?P<title>.+?)\\.\\s(?P<city>[A-Za-z\\s]+):\\s(?P<publisher>[A-Za-z\\s]+),\\s(?P<year>\\d\x7b4\x7d)(?:,\\spp\\.\\s(?P<pages>\\d+-\\d+))?"]),
   ("VANCOUVER",
    ["(?P<number>\\d+)\\.\\s(?P<author>[A-Za-z\\-]+\\s[A-Z]\x7b1,2\x7d)(?:,\\s[A-Za-z\\-]+\\s[A-Z]\x7b1,2\x7d)*(?:,\\s[A-Za-z\\-]+\\s[A-Z]\x7b1,2\x7d)?\\.\\s(?P<title>.+?)\\.\\s(?P<journal>.+?)\\.\\s(?P<year>\\d\x7b4\x7d);(?P<volume>\\d+)(?:\\((?P<issue>\\d+)\\))?:(?P<pages>\\d+-\\d+)\\.",
     "(?P<number>\\d+)\\.\\s(?P<author>[A-Za-z\\-]+\\s[A-Z]\x7b1,2\x7d)(?:,\\s[A-Za-z\\-]+\\s[A-Z]\x7b1,2\x7d)*(?:,\\s[A-Za-z\\-]+\\s[A-Z]\x7b1,2\x7d)?\\.\\s(?P<title>.+?)(?:\\.\\s(?P<edition>\\d+)(?:rd|nd|st|th)\\sed)?(?:\\.\\s(?P<city>[A-Za-z\\s]+):\\s(?P<publisher>[A-Za-z\\s]+);\\s(?P<year>\\d\x7b4\x7d))?"]),
   ("CSE",
    ["(?P<author>[A-Za-z\\-]+\\s[A-Z]\x7b1,2\x7d)(?:,\\s[A-Za-z\\-]+\\s[A-Z]\x7b1,2\x7d)*\\.\\s(?P<year>\\d\x7b4\x7d)\\.\\s(?P<title>.+?)\\.\\s(?P<journal>.+?)\\.\\s(?P<volume>\\d+)(?:\\((?P<issue>\\d+)\\))?:(?P<pages>\\d+-\\d+)\\.",
     "(?P<author>[A-Za-z\\-]+\\s[A-Z]\x7b1,2\x7d)(?:,\\s[A-Za-z\\-]+\\s[A-Z]\x7b1,2\x7d)*\\.\\s(?P<year>\\d\x7b4\x7d)\\.\\s(?P<title>.+?)\\.\\s(?P<city>[A-Za-z\\s]+)(?:\\s\\([A-Z]\x7b2\x7d\\))?:\\s(?P<publisher>[A-Za-z\\s]+)(?:\\.\\s(?P<pages>\\d+)\\sp)?"])]

/-- The two mutable pattern tables of a `CitationStyleDetector` instance. -/
structure DetectorTables where
  inTextPatterns : List (String × List String)
  fullCitationPatterns : List (String × List String)
deriving Repr, DecidableEq

/-- A freshly constructed detector (no custom patterns loaded). -/
def defaultDetector : DetectorTables := ⟨dInTextPatterns, dFullCitationPatterns⟩

/-- Per-style match counts. -/
structure StyleCounts where
  inText : List (String × Nat)
  fullCitation : List (String × Nat)
deriving Repr, DecidableEq

/-- Sum of `len(re.findall(p, text, re.MULTILINE))` over a style's
patterns. -/
def styleSum (text : String) (pats : List String) : Nat :=
  (pats.map fun p => reFindallCount true p text).sum

/-- `CitationStyleDetector.detect_citation_styles` (detector.py 201-228):
the zero-initialised dicts of the source make every style present, so each
style maps to the sum of its patterns' match counts. -/
def detectCitationStyles (st : DetectorTables) (text : String) : StyleCounts :=
  ⟨st.inTextPatterns.map (fun sp => (sp.1, styleSum text sp.2)),
   st.fullCitationPatterns.map (fun sp => (sp.1, styleSum text sp.2))⟩

/-- Sum of the values of a count dict. -/
def sumValues (l : List (String × Nat)) : Nat := (l.map (·.2)).sum

/-- `d[k] = d.get(k, 0) + v` on an insertion-ordered dict: add in place if
the key exists, else append. -/
def insertOrAdd : List (String × Nat) → String → Nat → List (String × Nat)
  | [], k, v => [(k, v)]
  | (k0, v0) :: rest, k, v =>
    if k0 = k then (k0, v0 + v) :: rest else (k0, v0) :: insertOrAdd rest k v

/-- The combined per-style totals of `identify_primary_style` (detector.py
250-266): in-text counts with the two Chicago sub-styles folded into
`CHICAGO`, then the full-citation counts added per style. -/
def combineCounts (res : StyleCounts) : List (String × Nat) :=
  let step1 := res.inText.foldl
    (fun acc sv =>
      if sv.1 = "CHICAGO_AUTHOR_DATE" ∨ sv.1 = "CHICAGO_NOTES" then
        insertOrAdd acc "CHICAGO" sv.2
      else insertOrAdd acc sv.1 sv.2) []
  res.fullCitation.foldl (fun acc sv => insertOrAdd acc sv.1 sv.2) step1

/-- Python's `max(d, key=d.get)`: the first key attaining the maximum
value, in insertion order. -/
def maxByFirst : List (String × Nat) → Option (String × Nat)
  | [] => none
  | kv :: rest => some (rest.foldl (fun best x => if x.2 > best.2 then x else best) kv)

/-- The "no citations" sentinel returned by the detector. -/
def noCitationsSentinel : String := "No se detectaron citas"

/-- `CitationStyleDetector.identify_primary_style` (detector.py 230-275),
with the float confidence `count / total` modelled as a rational. -/
def identifyPrimaryStyle (st : DetectorTables) (text : String) : String × ℚ :=
  if sumValues (detectCitationStyles st text).inText +
     sumValues (detectCitationStyles st text).fullCitation = 0 then
    (noCitationsSentinel, 0)
  else
    match maxByFirst (combineCounts (detectCitationStyles st text)) with
    | none => (noCitationsSentinel, 0)
    | some sv =>
      (sv.1, (sv.2 : ℚ) / ((sumValues (detectCitationStyles st text).inText +
        sumValues (detectCitationStyles st text).fullCitation : Nat) : ℚ))

/-- `CitationStyleDetector._extract_citation_keys` (detector.py 395-453).
The final `list(set(keys))` is modelled as first-occurrence deduplication;
a Python set iterates in an unspecified order, so statements proved about
this list only rely on membership or on singleton results, where every
order agrees. Capture groups named in the patterns always participate in a
successful match, so the `.getD ""` default is never taken. -/
def dExtractCitationKeys (text style : String) : List (String × String) :=
  let keys :=
    if style = "APA" ∨ style = "HARVARD" then
      (reFinditer false "\\((?P<author>[A-Za-z\\-]+(?:\\s[A-Za-z\\-]+)?(?: et al\\.)?),\\s(?P<year>\\d\x7b4\x7d)" text).map
        (fun m => (pyStrip ((getCap m.2 "author").getD ""), pyStrip ((getCap m.2 "year").getD ""))) ++
      (reFinditer false "(?P<author>[A-Za-z\\-]+(?:\\s[A-Za-z\\-]+)?(?: et al\\.)?)\\s\\((?P<year>\\d\x7b4\x7d)" text).map
        (fun m => (pyStrip ((getCap m.2 "author").getD ""), pyStrip ((getCap m.2 "year").getD "")))
    else if style = "MLA" then
      (reFinditer false "\\((?P<author>[A-Za-z\\-]+(?:\\s[A-Za-z\\-]+)?(?: et al\\.)?)\\s\\d+" text).map
        (fun m => (pyStrip ((getCap m.2 "author").getD ""), "")) ++
      (reFinditer false "(?P<author>[A-Za-z\\-]+(?:\\s[A-Za-z\\-]+)?(?: et al\\.)?)\\s\\(\\d+" text).map
        (fun m => (pyStrip ((getCap m.2 "author").getD ""), ""))
    else if style = "CHICAGO" then
      (reFinditer false "\\((?P<author>[A-Za-z\\-]+(?:\\s[A-Za-z\\-]+)?(?: et al\\.)?)\\s(?P<year>\\d\x7b4\x7d)" text).map
        (fun m => (pyStrip ((getCap m.2 "author").getD ""), pyStrip ((getCap m.2 "year").getD "")))
    else []
  dedupKeepFirst keys

/-- The bibliography-header keywords of
`CitationStyleDetector._find_bibliography_section` (detector.py 499-508). -/
def dBibHeaders : List (String × List String) :=
  [("APA", ["Referencias", "Bibliografía", "Referencias bibliográficas",
            "References", "Bibliography", "Reference List"]),
   ("MLA", ["Obras citadas", "Bibliografía", "Works Cited", "Bibliography"]),
   ("CHICAGO", ["Bibliografía", "Notas", "Bibliography", "Notes", "References"]),
   ("HARVARD", ["Referencias", "Bibliografía", "References", "Bibliography"]),
   ("IEEE", ["Referencias", "References"]),
   ("VANCOUVER", ["Referencias", "Bibliografía", "References", "Bibliography"]),
   ("CSE", ["Referencias", "Bibliografía", "References", "Bibliography",
            "Cited References"])]

/-- First header keyword whose composed pattern
`(?i)(?:^|\n)\s*{header}\s*(?:\n|$)` has a match; returns the match start
(detector.py 514-520; `re.search` is called without MULTILINE). -/
def dHeaderSearch : List String → String → Option Nat
  | [], _ => none
  | h :: rest, text =>
    match reSearch false false ("(?i)(?:^|\\n)\\s*" ++ h ++ "\\s*(?:\\n|$)") text with
    | some r => some r.1
    | none => dHeaderSearch rest text

/-- The backward walk of detector.py 529-535: starting from a line that
matched a full-citation pattern, step back while the previous line is
nonblank, stopping early on a line that contains a header keyword
(`re.search(fr'(?i){h}', line)`). -/
def dWalkBack (lines styleHeaders : List String) : Nat → Nat
  | 0 => 0
  | sl + 1 =>
    if (pyStrip (lines.getD sl "")).length ≠ 0 then
      if styleHeaders.any (fun h => (reSearch false false ("(?i)" ++ h) (lines.getD sl "")).isSome) then sl
      else dWalkBack lines styleHeaders sl
    else sl + 1

/-- The backward scan of detector.py 523-535: from the last line down to
line 1 (line 0 is never inspected, as in the source's `range(len-1, 0,
-1)`), find a line that `re.match`-es one of the style's full-citation
patterns and return the text from the walked-back start line on. -/
def dBackScan (lines styleHeaders pats : List String) : Nat → Option String
  | 0 => none
  | i + 1 =>
    if pats.any (fun p => (reMatchStart false p (lines.getD (i + 1) "")).isSome) then
      some (String.intercalate "\n" (lines.drop (dWalkBack lines styleHeaders (i + 1))))
    else dBackScan lines styleHeaders pats i

/-- `CitationStyleDetector._find_bibliography_section` (detector.py
487-537). -/
def dFindBibliographySection (st : DetectorTables) (text style : String) : String :=
  let styleHeaders := assocGetD dBibHeaders style []
  match dHeaderSearch styleHeaders text with
  | some startPos => String.mk (text.toList.drop startPos)
  | none =>
    let lines := splitLines text
    match dBackScan lines styleHeaders (assocGetD st.fullCitationPatterns style []) (lines.length - 1) with
    | some s => s
    | none => ""

/-- The line-grouping fallback of `extract_citations` (detector.py
705-728): group the bibliography section's lines into entries that start
at an author-comma, `[n]` or `n.` line and end at blank lines. -/
def dLineFallback : List String → String → List String
  | [], cur => if cur.length ≠ 0 then [cur] else []
  | line :: rest, cur =>
    let l := pyStrip line
    if l.length = 0 then
      if cur.length ≠ 0 then cur :: dLineFallback rest "" else dLineFallback rest ""
    else
      if (reMatchStart false "^[A-Za-z\\-]+," l).isSome ||
         (reMatchStart false "^\\[\\d+\\]" l).isSome ||
         (reMatchStart false "^\\d+\\." l).isSome then
        if cur.length ≠ 0 then cur :: dLineFallback rest l else dLineFallback rest l
      else dLineFallback rest (cur ++ " " ++ l)

/-- The two result lists of `extract_citations`. -/
structure ExtractedCitations where
  enTexto : List String
  bibliograficas : List String
deriving Repr, DecidableEq

/-- The in-text match collection of `extract_citations` (detector.py
676-688), before deduplication: the finditer hits of the primary style's
patterns in text order.  When the primary style is `CHICAGO` the
membership test `primary_style in self.in_text_patterns` fails (only the
sub-style keys exist), so nothing is collected; the source's inner CHICAGO
union is preserved although it is unreachable with the default tables. -/
def dCollectInText (st : DetectorTables) (text primary : String) : List String :=
  if (assocFind st.inTextPatterns primary).isSome then
    let pats :=
      if primary = "CHICAGO" then
        assocGetD st.inTextPatterns "CHICAGO_AUTHOR_DATE" [] ++
        assocGetD st.inTextPatterns "CHICAGO_NOTES" []
      else assocGetD st.inTextPatterns primary []
    pats.flatMap (fun p => (reFinditer true p text).map Prod.fst)
  else []

/-- The bibliography match collection of `extract_citations` (detector.py
690-728), before deduplication: direct full-citation matches in the
bibliography section, or the line-grouping fallback when there are
none. -/
def dCollectBiblio (st : DetectorTables) (text primary : String) : List String :=
  if (assocFind st.fullCitationPatterns primary).isSome then
    let bibSection := dFindBibliographySection st text primary
    if bibSection.length ≠ 0 then
      let pats := assocGetD st.fullCitationPatterns primary []
      let direct := pats.flatMap (fun p => (reFinditer true p bibSection).map Prod.fst)
      if direct.isEmpty then dLineFallback (splitLines bibSection) "" else direct
    else []
  else []

/-- `CitationStyleDetector.extract_citations` (detector.py 655-734).  The
final `sorted(list(set(xs)))` yields the sorted list of distinct matches
independently of the set's iteration order. -/
def dExtractCitations (st : DetectorTables) (text : String) : ExtractedCitations :=
  if (identifyPrimaryStyle st text).1 = noCitationsSentinel then ⟨[], []⟩
  else
    ⟨pySortStrings (dedupKeepFirst (dCollectInText st text (identifyPrimaryStyle st text).1)),
     pySortStrings (dedupKeepFirst (dCollectBiblio st text (identifyPrimaryStyle st text).1))⟩


/- ===== extractor.py: CitationExtractor (default construction, i.e. the
   `patterns=None` branch everywhere) ===== -/

/-- The bibliography-section header patterns of
`CitationExtractor._init_section_patterns` (extractor.py 36-84), in dict
insertion order.  Each entry is itself a regex carrying a leading `(?i)`. -/
def eBibHeaders : List (String × List String) :=
  [("APA",
    ["(?i)^Referencias$", "(?i)^Referencias bibliográficas$", "(?i)^Bibliografía$",
     "(?i)^References$", "(?i)^Reference List$", "(?i)^Bibliography$"]),
   ("MLA",
    ["(?i)^Obras citadas$", "(?i)^Works Cited$", "(?i)^Bibliografía$",
     "(?i)^Bibliography$"]),
   ("CHICAGO",
    ["(?i)^Bibliografía$", "(?i)^Bibliography$", "(?i)^Referencias$",
     "(?i)^References$", "(?i)^Notas$", "(?i)^Notes$"]),
   ("HARVARD",
    ["(?i)^Referencias$", "(?i)^Referencias bibliográficas$", "(?i)^Bibliografía$",
     "(?i)^Reference List$", "(?i)^References$"]),
   ("IEEE",
    ["(?i)^Referencias$", "(?i)^References$"]),
   ("VANCOUVER",
    ["(?i)^Referencias$", "(?i)^References$", "(?i)^Bibliografía$",
     "(?i)^Bibliography$"]),
   ("CSE",
    ["(?i)^Referencias$", "(?i)^References$", "(?i)^Cited References$",
     "(?i)^Referencias citadas$", "(?i)^Bibliografía$", "(?i)^Bibliography$"])]

/-- The local in-text citation patterns of
`CitationExtractor._init_section_patterns` (extractor.py 87-123), in dict
insertion order. -/
def eInTextPatterns : List (String × List String) :=
  [("APA",
    ["\\((?:[A-Za-zÀ-ÿ\\-]+(?:\\s[A-Za-zÀ-ÿ\\-]+)?(?: et al\\.)?(?:,| &| y) )?[A-Za-zÀ-ÿ\\-]+(?:\\s[A-Za-zÀ-ÿ\\-]+)?(?: et al\\.)?, \\d\x7b4\x7d(?:, p\\.? \\d+(?:-\\d+)?)?\\)",
     "(?:[A-Za-zÀ-ÿ\\-]+(?:\\s[A-Za-zÀ-ÿ\\-]+)?(?: et al\\.)?(?:,| &| y) )?[A-Za-zÀ-ÿ\\-]+(?:\\s[A-Za-zÀ-ÿ\\-]+)?(?: et al\\.)? \\(\\d\x7b4\x7d(?:, p\\.? \\d+(?:-\\d+)?)?\\)"]),
   ("MLA",
    ["\\([A-Za-zÀ-ÿ\\-]+(?:\\s[A-Za-zÀ-ÿ\\-]+)?(?: et al\\.)?(?: and [A-Za-zÀ-ÿ\\-]+(?:\\s[A-Za-zÀ-ÿ\\-]+)?)? \\d+(?:-\\d+)?\\)",
     "[A-Za-zÀ-ÿ\\-]+(?:\\s[A-Za-zÀ-ÿ\\-]+)?(?: et al\\.)?(?: and [A-Za-zÀ-ÿ\\-]+(?:\\s[A-Za-zÀ-ÿ\\-]+)?)? \\(\\d+(?:-\\d+)?\\)"]),
   ("CHICAGO_AUTHOR_DATE",
    ["\\([A-Za-zÀ-ÿ\\-]+(?:\\s[A-Za-zÀ-ÿ\\-]+)?(?: et al\\.)?(?: and [A-Za-zÀ-ÿ\\-]+(?:\\s[A-Za-zÀ-ÿ\\-]+)?)? \\d\x7b4\x7d(?:, \\d+(?:-\\d+)?)?\\)",
     "[A-Za-zÀ-ÿ\\-]+(?:\\s[A-Za-zÀ-ÿ\\-]+)?(?: et al\\.)?(?: and [A-Za-zÀ-ÿ\\-]+(?:\\s[A-Za-zÀ-ÿ\\-]+)?)? \\(\\d\x7b4\x7d(?:, \\d+(?:-\\d+)?)?\\)"]),
   ("CHICAGO_NOTES",
    ["^\\d+\\.\\s.+",
     "(?:Ibid\\.|Op\\. cit\\.|Loc\\. cit\\.)(?:,\\s\\d+(?:-\\d+)?)?"]),
   ("HARVARD",
    ["\\([A-Za-zÀ-ÿ\\-]+(?:\\s[A-Za-zÀ-ÿ\\-]+)?(?: et al\\.)?(?: and [A-Za-zÀ-ÿ\\-]+(?:\\s[A-Za-zÀ-ÿ\\-]+)?)?, \\d\x7b4\x7d(?::\\s?\\d+(?:-\\d+)?)?\\)",
     "[A-Za-zÀ-ÿ\\-]+(?:\\s[A-Za-zÀ-ÿ\\-]+)?(?: et al\\.)?(?: and [A-Za-zÀ-ÿ\\-]+(?:\\s[A-Za-zÀ-ÿ\\-]+)?)? \\(\\d\x7b4\x7d(?::\\s?\\d+(?:-\\d+)?)?\\)"]),
   ("IEEE",
    ["\\[\\d+\\]",
     "\\[\\d+(?:,\\s*\\d+)*\\]"]),
   ("VANCOUVER",
    ["\\(\\d+\\)",
     "\\[\\d+\\]",
     "(?:^|\\s)[\\u00B9\\u00B2\\u00B3\\u2070-\\u2079]+"]),
   ("CSE",
    ["\\([A-Za-zÀ-ÿ\\-]+(?:\\s[A-Za-zÀ-ÿ\\-]+)?(?: et al\\.)? \\d\x7b4\x7d\\)",
     "[A-Za-zÀ-ÿ\\-]+(?:\\s[A-Za-zÀ-ÿ\\-]+)?(?: et al\\.)? \\d\x7b4\x7d",
     "\\[\\d+\\]",
     "\\[[A-Za-zÀ-ÿ\\-]+(?:\\s[A-Za-zÀ-ÿ\\-]+)?(?:,\\s\\d\x7b4\x7d)?\\]"])]

/-- Walk an index back to the start of its line
(`while start_pos > 0 and text[start_pos-1] != '\n'` in extractor.py). -/
def walkToLineStart (chars : List Char) : Nat → Nat
  | 0 => 0
  | p + 1 => if chars.getD p ' ' ≠ '\n' then walkToLineStart chars p else p + 1

/-- Walk an index back to just after the nearest preceding blank line
(`while start_pos > 0: if text[start_pos:start_pos+2] == '\n\n': ...` in
extractor.py); reaches 0 if there is none. -/
def walkToBlank (chars : List Char) : Nat → Nat
  | 0 => 0
  | p + 1 =>
    if chars.getD (p + 1) ' ' = '\n' && chars.getD (p + 2) ' ' = '\n' then (p + 1) + 2
    else walkToBlank chars p

/-- The shared fallback of `_extract_main_text` and
`_extract_bibliography_section`: from the start index of a structural
match, walk to the line start and then back to the nearest blank line. -/
def eFallbackStart (chars : List Char) (idx : Nat) : Nat :=
  walkToBlank chars (walkToLineStart chars idx)

/-- First header regex of any style that matches as a standalone line
(`re.search(f"(?i)^{header}\\s*$", text, re.MULTILINE)`), returning the
match start. -/
def eHeaderLineHit (headers : List String) (text : String) : Option Nat :=
  match headers with
  | [] => none
  | h :: rest =>
    match reSearch true false ("(?i)^" ++ h ++ "\\s*$") text with
    | some r => some r.1
    | none => eHeaderLineHit rest text

/-- `CitationExtractor._extract_main_text` (extractor.py 296-335): cut the
text before a bibliography header of any style, else before a structural
APA-entry match, else return it whole. -/
def eExtractMainText (text : String) : String :=
  let rec overStyles : List (String × List String) → Option Nat
    | [] => none
    | sh :: rest =>
      match eHeaderLineHit sh.2 text with
      | some i => some i
      | none => overStyles rest
  match overStyles eBibHeaders with
  | some i => String.mk (text.toList.take i)
  | none =>
    match reSearch false false "\\n[A-Za-zÀ-ÿ\\-]+,\\s[A-Z]\\.(?:\\s[A-Z]\\.)?\\s\\(\\d\x7b4\x7d\\)\\." text with
    | some r => String.mk (text.toList.take (eFallbackStart text.toList r.1))
    | none => text

/-- `CitationExtractor._extract_bibliography_section` (extractor.py
337-432).  After a header match the section is cut at the next
section-looking line, searched from offset `len(header)` (the length of
the header's pattern string, as in the source).  When the style has no
`bibliography_headers` entry the source extends the empty list with every
style's headers (extractor.py 350-353), in dict insertion order. -/
def eExtractBibliographySection (text style : String) : String :=
  let headers := assocGetD eBibHeaders style []
  let headers := if headers.isEmpty then eBibHeaders.flatMap Prod.snd else headers
  let rec overHeaders : List String → Option String
    | [] => none
    | h :: rest =>
      match reSearch true false ("(?i)^" ++ h ++ "\\s*$") text with
      | some r =>
        let bibliography := String.mk (text.toList.drop r.1)
        let tailPart := String.mk (bibliography.toList.drop h.length)
        match reSearch false false "\\n\\s*[A-Z][A-Za-zÀ-ÿ\\s]+\\s*\\n" tailPart with
        | some ns => some (String.mk (bibliography.toList.take (h.length + ns.1)))
        | none => some bibliography
      | none => overHeaders rest
  match overHeaders headers with
  | some s => s
  | none =>
    if style = "APA" then
      match reSearch false false "\\n[A-Za-zÀ-ÿ\\-]+,\\s[A-Z]\\.(?:\\s[A-Z]\\.)?\\s\\(\\d\x7b4\x7d\\)\\." text with
      | some r => String.mk (text.toList.drop (eFallbackStart text.toList r.1))
      | none => ""
    else if style = "MLA" then
      match reSearch false false "\\n[A-Za-zÀ-ÿ\\-]+,\\s[A-Za-zÀ-ÿ\\-\\s]+\\.\\s" text with
      | some r => String.mk (text.toList.drop (eFallbackStart text.toList r.1))
      | none => ""
    else if style = "IEEE" then
      match reSearch false false "\\n\\[\\d+\\]\\s[A-Z]\\.\\s[A-Za-zÀ-ÿ\\-]+" text with
      | some r => String.mk (text.toList.drop (eFallbackStart text.toList r.1))
      | none => ""
    else ""

/-- The line-accumulation loop shared by the branches of
`_split_bibliography_entries` (extractor.py 452-532): blank lines close
the current entry, `startsNew` lines open a new one, anything else is
appended with a space. -/
def splitEntriesLoop (startsNew : String → Bool) : List String → String → List String
  | [], cur => if (pyStrip cur).length ≠ 0 then [pyStrip cur] else []
  | line :: rest, cur =>
    let l := pyStrip line
    if l.length = 0 then
      if (pyStrip cur).length ≠ 0 then pyStrip cur :: splitEntriesLoop startsNew rest ""
      else splitEntriesLoop startsNew rest ""
    else if startsNew l then
      if (pyStrip cur).length ≠ 0 then pyStrip cur :: splitEntriesLoop startsNew rest l
      else splitEntriesLoop startsNew rest l
    else splitEntriesLoop startsNew rest (cur ++ " " ++ l)

/-- Split a text at the matches of a pattern (`re.split`). -/
def splitByRE (ci ml : Bool) (r : RE) : Nat → Option Char → List Char → List Char → List String
  | 0, _, s, acc => [String.mk (acc.reverse ++ s)]
  | f + 1, prev, s, acc =>
    match matchHere ci ml r prev s with
    | some (n, p2, s2, _) =>
      if n = 0 then
        match s with
        | [] => [String.mk acc.reverse]
        | c :: rest => splitByRE ci ml r f (some c) rest (c :: acc)
      else String.mk acc.reverse :: splitByRE ci ml r f p2 s2 []
    | none =>
      match s with
      | [] => [String.mk acc.reverse]
      | c :: rest => splitByRE ci ml r f (some c) rest (c :: acc)

/-- Model of `re.split(pattern, text)`. -/
def reSplit (p text : String) : List String :=
  match compileRE p with
  | some (ci, r) => splitByRE ci false r (text.length + 1) none text.toList []
  | none => [text]

/-- `CitationExtractor._split_bibliography_entries` (extractor.py 434-543). -/
def eSplitBibliographyEntries (bibSection style : String) : List String :=
  let cleaned := (assocGetD eBibHeaders style []).foldl
    (fun acc h => reSubEmpty false ("(?i)^" ++ h ++ "\\s*\\n") acc) bibSection
  if style = "APA" ∨ style = "MLA" ∨ style = "CHICAGO" ∨ style = "HARVARD" then
    splitEntriesLoop
      (fun l => (reMatchStart false "^[A-Za-zÀ-ÿ\\-]+," l).isSome)
      (splitLines cleaned) ""
  else if style = "IEEE" ∨ style = "VANCOUVER" then
    splitEntriesLoop
      (fun l => (reMatchStart false "^\\[\\d+\\]|\\d+\\." l).isSome)
      (splitLines cleaned) ""
  else if style = "CSE" then
    splitEntriesLoop
      (fun l => (reMatchStart false "^\\[\\d+\\]|\\d+\\.|\\w+\\s\\w+\\s\\d\x7b4\x7d\\." l).isSome)
      (splitLines cleaned) ""
  else
    ((reSplit "\\n\\s*\\n" cleaned).map pyStrip).filter (fun e => e.length ≠ 0)

/-- `CitationExtractor._is_valid_citation` (extractor.py 545-622). -/
def isValidCitation (citation style ctype : String) : Bool :=
  if citation.length < 3 then false
  else if ctype = "in_text" then
    if style = "APA" then
      if reSearch false false "\\d\x7b4\x7d" citation = none then false
      else if citation.toList.head? = some '(' ∧ citation.toList.getLast? ≠ some ')' then false
      else citation.length ≤ 100
    else if style = "MLA" then
      if '(' ∈ citation.toList ∧ ')' ∈ citation.toList ∧
         reSearch false false "\\d+" citation = none then false
      else citation.length ≤ 100
    else if style = "CHICAGO_AUTHOR_DATE" ∨ style = "CHICAGO" then
      if reSearch false false "\\d\x7b4\x7d" citation = none then false
      else if citation.toList.head? = some '(' ∧ citation.toList.getLast? ≠ some ')' then false
      else citation.length ≤ 100
    else if style = "IEEE" ∨ style = "VANCOUVER" then
      if reSearch false false "\\d+" citation = none then false
      else citation.length ≤ 100
    else citation.length ≤ 100
  else if ctype = "bibliography" then
    if reSearch false false "[.!?]$" citation = none then false
    else if style ≠ "MLA" ∧ reSearch false false "\\d\x7b4\x7d" citation = none then false
    else if (style = "IEEE" ∨ style = "VANCOUVER") ∧
            reSearch false false "^\\[\\d+\\]|\\d+\\." citation = none then false
    else if (style = "APA" ∨ style = "MLA" ∨ style = "CHICAGO" ∨ style = "HARVARD") ∧
            reSearch false false "^[A-Za-zÀ-ÿ\\-]+," citation = none then false
    else if citation.length < 20 then false
    else if citation.length > 1000 then false
    else true
  else true

/-- `CitationExtractor.extract_in_text_citations` (extractor.py 155-226)
for a default-constructed extractor (`self.patterns is None`): apply the
local patterns of the style (both Chicago buckets for `CHICAGO`, all
styles' patterns when the style is unknown) to the main text, filter
through the validity check, and deduplicate keeping first occurrences. -/
def eCollectInText (text style : String) : List String :=
  let mainText := eExtractMainText text
  let pats :=
    if style = "CHICAGO" then
      assocGetD eInTextPatterns "CHICAGO_AUTHOR_DATE" [] ++
      assocGetD eInTextPatterns "CHICAGO_NOTES" []
    else assocGetD eInTextPatterns style []
  let pats := if pats.isEmpty then eInTextPatterns.flatMap (·.2) else pats
  pats.flatMap fun p =>
    ((reFinditer false p mainText).map Prod.fst).filter
      (fun c => isValidCitation c style "in_text")

/-- The deduplicated result of `extract_in_text_citations`. -/
def eExtractInTextCitations (text style : String) : List String :=
  dedupKeepFirst (eCollectInText text style)

/-- `CitationExtractor.extract_bibliography_citations` (extractor.py
228-254): split the bibliography section into entries and keep the
stripped entries that pass the validity check. -/
def eExtractBibliographyCitations (text style : String) : List String :=
  if (eExtractBibliographySection text style).length = 0 then []
  else
    ((eSplitBibliographyEntries (eExtractBibliographySection text style) style).map pyStrip).filter
      (fun e => e.length ≠ 0 && isValidCitation e style "bibliography")

/-- Overwrite-or-append dict assignment `d[k] = v`. -/
def assocSet : List (String × Nat) → String → Nat → List (String × Nat)
  | [], k, v => [(k, v)]
  | (k0, v0) :: rest, k, v =>
    if k0 = k then (k0, v) :: rest else (k0, v0) :: assocSet rest k v

/-- `d.pop(k, 0)` on an insertion-ordered dict. -/
def assocPop (l : List (String × Nat)) (k : String) : Nat × List (String × Nat) :=
  (assocGetD l k 0, l.filter (fun kv => kv.1 ≠ k))

/-- The score accumulation of `CitationExtractor._detect_citation_style`
(extractor.py 266-279): +5 per matching bibliography header (searched with
IGNORECASE | MULTILINE), plus `len(re.findall(p, text))` (no flags) per
in-text pattern; `defaultdict` entries appear on first `+=`, and the
in-text loop always inserts its style keys. -/
def eDetectStyleCounts (text : String) : List (String × Nat) :=
  let afterHeaders := eBibHeaders.foldl
    (fun acc sh => sh.2.foldl
      (fun acc2 h => if (reSearch true true h text).isSome then insertOrAdd acc2 sh.1 5 else acc2)
      acc) []
  eInTextPatterns.foldl
    (fun acc sp => sp.2.foldl
      (fun acc2 p => insertOrAdd acc2 sp.1 (reFindallCount false p text)) acc)
    afterHeaders

/-- `CitationExtractor._detect_citation_style` (extractor.py 256-294): fold
the two Chicago buckets into `CHICAGO` (the dict assignment overwrites any
header score `CHICAGO` already had, as in the source), then return the
first style attaining the maximum count if positive, else `'APA'`. -/
def eDetectChicagoFold (counts : List (String × Nat)) : List (String × Nat) :=
  if (assocFind counts "CHICAGO_AUTHOR_DATE").isSome = true ∨
     (assocFind counts "CHICAGO_NOTES").isSome = true then
    assocSet (assocPop (assocPop counts "CHICAGO_AUTHOR_DATE").2 "CHICAGO_NOTES").2 "CHICAGO"
      ((assocPop counts "CHICAGO_AUTHOR_DATE").1 +
       (assocPop (assocPop counts "CHICAGO_AUTHOR_DATE").2 "CHICAGO_NOTES").1)
  else counts

def eDetectCitationStyle (text : String) : String :=
  match maxByFirst (eDetectChicagoFold (eDetectStyleCounts text)) with
  | none => "APA"
  | some sv => if sv.2 > 0 then sv.1 else "APA"

/-- `CitationExtractor.extract_all_citations` (extractor.py 125-153): when
no style is supplied, detect one, then run both extraction operations. -/
def eExtractAllCitations (text : String) (style : Option String) : ExtractedCitations :=
  match style with
  | some s => ⟨eExtractInTextCitations text s, eExtractBibliographyCitations text s⟩
  | none =>
    ⟨eExtractInTextCitations text (eDetectCitationStyle text),
     eExtractBibliographyCitations text (eDetectCitationStyle text)⟩


/- ===== validator.py: CitationValidator ===== -/

/-- Collapse every whitespace run into a single space, the translation of
`re.sub(r'\s+', ' ', s)`. -/
def collapseWSAux : List Char → Bool → List Char
  | [], _ => []
  | c :: rest, inRun =>
    if pyWS c then
      if inRun then collapseWSAux rest true else ' ' :: collapseWSAux rest true
    else c :: collapseWSAux rest false

/-- Collapse whitespace runs to single spaces. -/
def collapseWS (l : List Char) : List Char := collapseWSAux l false

/-- Replace `&` by `and` (`str.replace('&', 'and')`). -/
def replaceAmp (l : List Char) : List Char :=
  l.flatMap fun c => if c = '&' then ['a', 'n', 'd'] else [c]

/-- `CitationValidator._normalize_author_name` (validator.py 630-652):
lower-case (ASCII fragment of `str.lower`), delete `.,;:` (the translation
of `re.sub(r'[.,;:]', '', s)`), replace `&` by `and`, collapse whitespace
runs and strip. -/
def normalizeAuthorName (author : String) : String :=
  pyStrip (String.mk (collapseWS (replaceAmp
    ((author.toList.map asciiLower).filter
      (fun c => !(c = '.' || c = ',' || c = ';' || c = ':'))))))

/-- Does the needle occur at the front of the haystack? -/
def matchesFront : List Char → List Char → Bool
  | [], _ => true
  | _ :: _, [] => false
  | n :: ns, h :: hs => n = h && matchesFront ns hs

/-- Substring containment, the Python `needle in hay` on strings. -/
def containsChars (hay needle : List Char) : Bool :=
  match hay with
  | [] => needle.isEmpty
  | _ :: rest => matchesFront needle hay || containsChars rest needle

/-- String-level substring containment. -/
def strContains (hay needle : String) : Bool := containsChars hay.toList needle.toList

/-- Characters before the first occurrence of the needle, the Python
`s.split(pat)[0]` for a fixed nonempty separator. -/
def beforeFirstAux (needle : List Char) : List Char → List Char
  | [] => []
  | c :: rest =>
    if matchesFront needle (c :: rest) then [] else c :: beforeFirstAux needle rest

/-- `s.split(pat)[0]` for a fixed nonempty separator. -/
def beforeFirst (s pat : String) : String := String.mk (beforeFirstAux pat.toList s.toList)

/-- `s.split()[0] if " " in s else s` on a normalized author name, whose
only whitespace is single interior spaces. -/
def firstToken (s : String) : String :=
  if s.toList.contains ' ' then String.mk (s.toList.takeWhile fun c => c ≠ ' ')
  else s

/-- `CitationValidator._match_author_names` (validator.py 587-628).  The
source's chain of early `return True`s is translated as the disjunction of
its five conditions on the normalized names: exact equality; the `et al`
prefix of either side contained in the other; substring containment either
way; equality of the leading tokens. -/
def matchAuthorNames (author1 author2 : String) : Bool :=
  let n1 := normalizeAuthorName author1
  let n2 := normalizeAuthorName author2
  (n1 = n2) ||
  (strContains n1 "et al" && strContains n2 (pyStrip (beforeFirst n1 "et al"))) ||
  (strContains n2 "et al" && strContains n1 (pyStrip (beforeFirst n2 "et al"))) ||
  (strContains n2 n1 || strContains n1 n2) ||
  (firstToken n1 = firstToken n2)

/-- `CitationValidator._extract_citation_keys` (validator.py 404-465):
per citation string, the first matching pattern of the style contributes
one (author, year) pair; numbered groups are keyed by their decimal
number.  Groups in these patterns always participate in a successful
match, so the `.getD ""` defaults are never taken. -/
def vExtractCitationKeys (citations : List String) (style : String) :
    List (String × String) :=
  citations.flatMap fun citation =>
    if style = "APA" ∨ style = "HARVARD" then
      match reSearch false false "\\(([A-Za-z\\-]+(?: et al\\.)?),\\s(\\d\x7b4\x7d)" citation with
      | some r => [((getCap r.2.2 "1").getD "", (getCap r.2.2 "2").getD "")]
      | none =>
        match reSearch false false "([A-Za-z\\-]+(?: et al\\.)?)\\s\\((\\d\x7b4\x7d)" citation with
        | some r => [((getCap r.2.2 "1").getD "", (getCap r.2.2 "2").getD "")]
        | none =>
          match reSearch false false "\\(([A-Za-z\\-]+(?:\\s[A-Za-z\\-]+)?)(?:\\s&|\\sy)\\s([A-Za-z\\-]+(?:\\s[A-Za-z\\-]+)?),\\s(\\d\x7b4\x7d)" citation with
          | some r =>
            [(((getCap r.2.2 "1").getD "") ++ " & " ++ ((getCap r.2.2 "2").getD ""),
              (getCap r.2.2 "3").getD "")]
          | none => []
    else if style = "MLA" then
      match reSearch false false "\\(([A-Za-z\\-]+(?: et al\\.)?)\\s\\d+" citation with
      | some r => [((getCap r.2.2 "1").getD "", "")]
      | none =>
        match reSearch false false "\\(([A-Za-z\\-]+(?:\\s[A-Za-z\\-]+)?)\\sand\\s([A-Za-z\\-]+(?:\\s[A-Za-z\\-]+)?)\\s\\d+" citation with
        | some r =>
          [(((getCap r.2.2 "1").getD "") ++ " and " ++ ((getCap r.2.2 "2").getD ""), "")]
        | none => []
    else if style = "CHICAGO" then
      match reSearch false false "\\(([A-Za-z\\-]+(?: et al\\.)?)\\s(\\d\x7b4\x7d)" citation with
      | some r => [((getCap r.2.2 "1").getD "", (getCap r.2.2 "2").getD "")]
      | none => []
    else []

/- ===== patterns.py: CitationPatterns ===== -/

/-- The six mutable tables of a `CitationPatterns` instance: the three raw
pattern-string tables and their compiled mirrors.  The static contents
loaded by `__init__` never matter to the claims below, which are proved
for every table state. -/
structure PatternsState where
  inTextPatterns : List (String × List String)
  bibliographyPatterns : List (String × List String)
  bibliographyHeaders : List (String × List String)
  compiledInText : List (String × List (Bool × RE))
  compiledBibliography : List (String × List (Bool × RE))
  compiledHeaders : List (String × List (Bool × RE))
deriving Repr, DecidableEq

/-- Append to the list at a key, creating an empty entry first if the key
is absent (the `if style not in ...` branches of `add_custom_pattern`). -/
def assocAppend : List (String × List α) → String → α → List (String × List α)
  | [], k, x => [(k, [x])]
  | kv :: rest, k, x =>
    if kv.1 = k then (kv.1, kv.2 ++ [x]) :: rest else kv :: assocAppend rest k x

/-- `CitationPatterns.add_custom_pattern` (patterns.py 729-774): compile
the pattern (`none` models `re.error`, caught and reported as `False` with
no mutation), reject unknown pattern types, and otherwise append the
source string and its compiled form to the tables of the requested
style. -/
def addCustomPattern (st : PatternsState) (style ptype pattern : String) :
    Bool × PatternsState :=
  match compileRE pattern with
  | none => (false, st)
  | some compiled =>
    if ptype = "in_text" then
      (true, { st with inTextPatterns := assocAppend st.inTextPatterns style pattern,
                       compiledInText := assocAppend st.compiledInText style compiled })
    else if ptype = "bibliography" then
      (true, { st with bibliographyPatterns := assocAppend st.bibliographyPatterns style pattern,
                       compiledBibliography := assocAppend st.compiledBibliography style compiled })
    else if ptype = "headers" then
      (true, { st with bibliographyHeaders := assocAppend st.bibliographyHeaders style pattern,
                       compiledHeaders := assocAppend st.compiledHeaders style compiled })
    else (false, st)

/- ===== detector.py: _load_custom_patterns ===== -/

/-- One section of a custom-pattern configuration: either a dict from
style names to lists of pattern strings (the shape detector.py 181-194
merges), or a value of the wrong shape, on which Python's `.items()`
raises. -/
inductive JSec where
  | dict (entries : List (String × List String)) : JSec
  | bad : JSec
deriving Repr, DecidableEq

/-- A parsed custom-pattern configuration object: the two optional
top-level sections. -/
structure CustomConfig where
  inTextSec : Option JSec
  fullSec : Option JSec
deriving Repr, DecidableEq

/-- Replace the list at a key (dict assignment on a known key). -/
def assocReplace : List (String × List String) → String → List String →
    List (String × List String)
  | [], k, v => [(k, v)]
  | kv :: rest, k, v => if kv.1 = k then (k, v) :: rest else kv :: assocReplace rest k v

/-- Merge one configuration section into a pattern table: extend the list
of a known style, create the entry for a new one (detector.py 181-194). -/
def mergeSection (entries : List (String × List String))
    (tbl : List (String × List String)) : List (String × List String) :=
  entries.foldl
    (fun acc sp =>
      match assocFind acc sp.1 with
      | some existing => assocReplace acc sp.1 (existing ++ sp.2)
      | none => acc ++ [sp]) tbl

/-- `CitationStyleDetector._load_custom_patterns` (detector.py 169-199).
`cfg = none` models a file whose JSON parse raises (caught, tables
unchanged).  A `bad` in-text section raises before any mutation; a `bad`
full-citation section raises after the in-text merges have been applied —
the enclosing `except` only logs, rolling nothing back.  Returns the
resulting tables and whether the load completed. -/
def loadCustomPatterns (cfg : Option CustomConfig) (st : DetectorTables) :
    DetectorTables × Bool :=
  match cfg with
  | none => (st, false)
  | some c =>
    match c.inTextSec, c.fullSec with
    | some .bad, _ => (st, false)
    | some (.dict es), some .bad =>
      ({ st with inTextPatterns := mergeSection es st.inTextPatterns }, false)
    | some (.dict es), some (.dict es2) =>
      (⟨mergeSection es st.inTextPatterns, mergeSection es2 st.fullCitationPatterns⟩, true)
    | some (.dict es), none =>
      ({ st with inTextPatterns := mergeSection es st.inTextPatterns }, true)
    | none, some .bad => (st, false)
    | none, some (.dict es2) =>
      ({ st with fullCitationPatterns := mergeSection es2 st.fullCitationPatterns }, true)
    | none, none => (st, true)


/- ===== supporting lemmas about the embedded operations ===== -/

theorem dedupAux_sublist [DecidableEq α] (seen : List α) (l : List α) :
    (dedupAux seen l).Sublist l := by
  induction l generalizing seen with
  | nil => simp [dedupAux]
  | cons x rest ih =>
    simp only [dedupAux]
    by_cases h : x ∈ seen
    · rw [if_pos h]
      exact (ih seen).cons x
    · rw [if_neg h]
      exact (ih (x :: seen)).cons₂ x

theorem mem_dedupAux [DecidableEq α] (seen : List α) (l : List α) (x : α) :
    x ∈ dedupAux seen l ↔ (x ∈ l ∧ x ∉ seen) := by
  induction l generalizing seen with
  | nil => simp [dedupAux]
  | cons y rest ih =>
    simp only [dedupAux]
    by_cases h : y ∈ seen
    · rw [if_pos h, ih]
      simp only [List.mem_cons]
      constructor
      · rintro ⟨hx, hs⟩
        exact ⟨Or.inr hx, hs⟩
      · rintro ⟨hx | hx, hs⟩
        · exact absurd (hx ▸ h) hs
        · exact ⟨hx, hs⟩
    · rw [if_neg h]
      simp only [List.mem_cons, ih, List.mem_cons]
      constructor
      · rintro (rfl | ⟨hx, hs⟩)
        · exact ⟨Or.inl rfl, h⟩
        · push_neg at hs
          exact ⟨Or.inr hx, hs.2⟩
      · rintro ⟨rfl | hx, hs⟩
        · exact Or.inl rfl
        · by_cases hxy : x = y
          · exact Or.inl hxy
          · exact Or.inr ⟨hx, by simp [hs, hxy]⟩

theorem dedupAux_nodup [DecidableEq α] (seen : List α) (l : List α) :
    (dedupAux seen l).Nodup := by
  induction l generalizing seen with
  | nil => simp [dedupAux]
  | cons x rest ih =>
    simp only [dedupAux]
    by_cases h : x ∈ seen
    · rw [if_pos h]
      exact ih seen
    · rw [if_neg h]
      refine List.nodup_cons.mpr ⟨fun hmem => ?_, ih (x :: seen)⟩
      exact ((mem_dedupAux (x :: seen) rest x).mp hmem).2 (List.mem_cons_self x seen)

theorem dedupKeepFirst_nodup [DecidableEq α] (l : List α) : (dedupKeepFirst l).Nodup :=
  dedupAux_nodup [] l

theorem dedupKeepFirst_sublist [DecidableEq α] (l : List α) :
    (dedupKeepFirst l).Sublist l := dedupAux_sublist [] l

theorem mem_dedupKeepFirst [DecidableEq α] (l : List α) (x : α) :
    x ∈ dedupKeepFirst l ↔ x ∈ l := by
  rw [dedupKeepFirst, mem_dedupAux]
  simp

theorem insertLe_perm (x : String) (l : List String) :
    (insertLe x l).Perm (x :: l) := by
  induction l with
  | nil => exact List.Perm.refl _
  | cons y ys ih =>
    unfold insertLe
    split
    · exact List.Perm.refl _
    · exact (List.Perm.cons y ih).trans (List.Perm.swap x y ys)

theorem pySortStrings_perm (l : List String) : (pySortStrings l).Perm l := by
  induction l with
  | nil => exact List.Perm.refl _
  | cons x xs ih =>
    exact (insertLe_perm x (pySortStrings xs)).trans (List.Perm.cons x ih)

theorem pySortStrings_nodup (l : List String) (h : l.Nodup) : (pySortStrings l).Nodup :=
  (pySortStrings_perm l).symm.nodup h

theorem sumValues_insertOrAdd (l : List (String × Nat)) (k : String) (v : Nat) :
    sumValues (insertOrAdd l k v) = sumValues l + v := by
  induction l with
  | nil => simp [insertOrAdd, sumValues]
  | cons kv rest ih =>
    obtain ⟨k0, v0⟩ := kv
    simp only [insertOrAdd]
    by_cases h : k0 = k
    · rw [if_pos h]
      simp only [sumValues, List.map_cons, List.sum_cons]
      omega
    · rw [if_neg h]
      simp only [sumValues, List.map_cons, List.sum_cons] at ih ⊢
      omega

theorem sumValues_foldl (step : List (String × Nat) → (String × Nat) → List (String × Nat))
    (hstep : ∀ acc sv, sumValues (step acc sv) = sumValues acc + sv.2)
    (l : List (String × Nat)) (init : List (String × Nat)) :
    sumValues (l.foldl step init) = sumValues init + sumValues l := by
  induction l generalizing init with
  | nil => simp [sumValues]
  | cons sv rest ih =>
    simp only [List.foldl_cons]
    rw [ih, hstep]
    simp only [sumValues, List.map_cons, List.sum_cons]
    omega

theorem sumValues_combineCounts (res : StyleCounts) :
    sumValues (combineCounts res) = sumValues res.inText + sumValues res.fullCitation := by
  have houter : ∀ (acc : List (String × Nat)) (sv : String × Nat),
      sumValues (insertOrAdd acc sv.1 sv.2) = sumValues acc + sv.2 :=
    fun acc sv => sumValues_insertOrAdd acc sv.1 sv.2
  have hinner : ∀ (acc : List (String × Nat)) (sv : String × Nat),
      sumValues (if sv.1 = "CHICAGO_AUTHOR_DATE" ∨ sv.1 = "CHICAGO_NOTES" then
        insertOrAdd acc "CHICAGO" sv.2 else insertOrAdd acc sv.1 sv.2) =
      sumValues acc + sv.2 := by
    intro acc sv
    by_cases h : sv.1 = "CHICAGO_AUTHOR_DATE" ∨ sv.1 = "CHICAGO_NOTES"
    · rw [if_pos h, sumValues_insertOrAdd]
    · rw [if_neg h, sumValues_insertOrAdd]
  unfold combineCounts
  rw [sumValues_foldl _ houter, sumValues_foldl _ hinner]
  simp [sumValues]

theorem foldl_preserve (β : Type) (step : β → (String × Nat) → β) (Q : β → Prop)
    (l : List (String × Nat)) (init : β) (hinit : Q init)
    (hstep : ∀ acc sv, sv ∈ l → Q acc → Q (step acc sv)) : Q (l.foldl step init) := by
  induction l generalizing init with
  | nil => exact hinit
  | cons x rest ih =>
    exact ih (step init x) (hstep init x (List.mem_cons_self x rest) hinit)
      (fun acc sv hm hq => hstep acc sv (List.mem_cons_of_mem x hm) hq)

theorem insertOrAdd_keys (l : List (String × Nat)) (k : String) (v : Nat) (key : String)
    (h : key ∈ (insertOrAdd l k v).map Prod.fst) : key = k ∨ key ∈ l.map Prod.fst := by
  induction l with
  | nil =>
    simp [insertOrAdd] at h
    exact Or.inl h
  | cons kv0 rest ih =>
    obtain ⟨k0, v0⟩ := kv0
    simp only [insertOrAdd] at h
    by_cases hk : k0 = k
    · rw [if_pos hk] at h
      simp only [List.map_cons, List.mem_cons] at h
      rcases h with h | h
      · exact Or.inl (h.trans hk)
      · exact Or.inr (by simp only [List.map_cons, List.mem_cons]; exact Or.inr h)
    · rw [if_neg hk] at h
      simp only [List.map_cons, List.mem_cons] at h
      rcases h with h | h
      · exact Or.inr (by simp only [List.map_cons, List.mem_cons]; exact Or.inl h)
      · rcases ih h with h1 | h1
        · exact Or.inl h1
        · exact Or.inr (by simp only [List.map_cons, List.mem_cons]; exact Or.inr h1)

theorem combineCounts_keys (res : StyleCounts) (key : String)
    (h : key ∈ (combineCounts res).map Prod.fst) :
    key = "CHICAGO" ∨ key ∈ res.inText.map Prod.fst ∨ key ∈ res.fullCitation.map Prod.fst := by
  simp only [combineCounts] at h
  have step1 : ∀ k2 ∈ (res.inText.foldl
      (fun acc sv => if sv.1 = "CHICAGO_AUTHOR_DATE" ∨ sv.1 = "CHICAGO_NOTES" then
        insertOrAdd acc "CHICAGO" sv.2 else insertOrAdd acc sv.1 sv.2) [] : List (String × Nat)).map Prod.fst,
      k2 = "CHICAGO" ∨ k2 ∈ res.inText.map Prod.fst := by
    refine foldl_preserve (List (String × Nat)) _
      (fun acc => ∀ k2 ∈ acc.map Prod.fst, k2 = "CHICAGO" ∨ k2 ∈ res.inText.map Prod.fst)
      res.inText [] (by simp) ?_
    intro acc sv hm hq k2 hk2
    by_cases hc : sv.1 = "CHICAGO_AUTHOR_DATE" ∨ sv.1 = "CHICAGO_NOTES"
    · rw [if_pos hc] at hk2
      rcases insertOrAdd_keys acc "CHICAGO" sv.2 k2 hk2 with h1 | h1
      · exact Or.inl h1
      · exact hq k2 h1
    · rw [if_neg hc] at hk2
      rcases insertOrAdd_keys acc sv.1 sv.2 k2 hk2 with h1 | h1
      · exact Or.inr (h1 ▸ List.mem_map_of_mem Prod.fst hm)
      · exact hq k2 h1
  have step2 : ∀ k2 ∈ ((res.fullCitation.foldl (fun acc sv => insertOrAdd acc sv.1 sv.2)
      (res.inText.foldl
        (fun acc sv => if sv.1 = "CHICAGO_AUTHOR_DATE" ∨ sv.1 = "CHICAGO_NOTES" then
          insertOrAdd acc "CHICAGO" sv.2 else insertOrAdd acc sv.1 sv.2) [])) :
      List (String × Nat)).map Prod.fst,
      k2 = "CHICAGO" ∨ k2 ∈ res.inText.map Prod.fst ∨ k2 ∈ res.fullCitation.map Prod.fst := by
    refine foldl_preserve (List (String × Nat)) _
      (fun acc => ∀ k2 ∈ acc.map Prod.fst,
        k2 = "CHICAGO" ∨ k2 ∈ res.inText.map Prod.fst ∨ k2 ∈ res.fullCitation.map Prod.fst)
      res.fullCitation _ (fun k2 hk2 => (step1 k2 hk2).imp id Or.inl) ?_
    intro acc sv hm hq k2 hk2
    rcases insertOrAdd_keys acc sv.1 sv.2 k2 hk2 with h1 | h1
    · exact Or.inr (Or.inr (h1 ▸ List.mem_map_of_mem Prod.fst hm))
    · exact hq k2 h1
  exact step2 key h

theorem maxByFirst_pick_mem (l : List (String × Nat)) (b : String × Nat) :
    l.foldl (fun best x => if x.2 > best.2 then x else best) b = b ∨
    l.foldl (fun best x => if x.2 > best.2 then x else best) b ∈ l := by
  induction l generalizing b with
  | nil => exact Or.inl rfl
  | cons x rest ih =>
    simp only [List.foldl_cons]
    rcases ih (if x.2 > b.2 then x else b) with h | h
    · rw [h]
      by_cases hx : x.2 > b.2
      · rw [if_pos hx]
        exact Or.inr (List.mem_cons_self x rest)
      · rw [if_neg hx]
        exact Or.inl rfl
    · exact Or.inr (List.mem_cons_of_mem x h)

theorem maxByFirst_pick_ge (l : List (String × Nat)) (b : String × Nat) :
    b.2 ≤ (l.foldl (fun best x => if x.2 > best.2 then x else best) b).2 ∧
    ∀ kv ∈ l, kv.2 ≤ (l.foldl (fun best x => if x.2 > best.2 then x else best) b).2 := by
  induction l generalizing b with
  | nil => exact ⟨Nat.le_refl _, by simp⟩
  | cons x rest ih =>
    simp only [List.foldl_cons]
    obtain ⟨h1, h2⟩ := ih (if x.2 > b.2 then x else b)
    constructor
    · refine Nat.le_trans ?_ h1
      by_cases hx : x.2 > b.2
      · rw [if_pos hx]; omega
      · rw [if_neg hx]
    · intro kv hkv
      rcases List.mem_cons.mp hkv with rfl | hkv2
      · refine Nat.le_trans ?_ h1
        by_cases hx : kv.2 > b.2
        · rw [if_pos hx]
        · rw [if_neg hx]; omega
      · exact h2 kv hkv2

theorem maxByFirst_mem (l : List (String × Nat)) (sv : String × Nat)
    (h : maxByFirst l = some sv) : sv ∈ l := by
  cases l with
  | nil => simp [maxByFirst] at h
  | cons b rest =>
    simp only [maxByFirst, Option.some_inj] at h
    rcases maxByFirst_pick_mem rest b with h1 | h1
    · rw [h] at h1
      exact h1 ▸ List.mem_cons_self b rest
    · exact List.mem_cons_of_mem b (h ▸ h1)

theorem maxByFirst_ge (l : List (String × Nat)) (sv : String × Nat)
    (h : maxByFirst l = some sv) : ∀ kv ∈ l, kv.2 ≤ sv.2 := by
  cases l with
  | nil => simp [maxByFirst] at h
  | cons b rest =>
    simp only [maxByFirst, Option.some_inj] at h
    obtain ⟨h1, h2⟩ := maxByFirst_pick_ge rest b
    intro kv hkv
    rcases List.mem_cons.mp hkv with rfl | hkv2
    · exact h ▸ h1
    · exact h ▸ h2 kv hkv2

theorem val_le_sumValues (l : List (String × Nat)) (kv : String × Nat) (h : kv ∈ l) :
    kv.2 ≤ sumValues l := by
  induction l with
  | nil => cases h
  | cons x rest ih =>
    simp only [sumValues, List.map_cons, List.sum_cons]
    rcases List.mem_cons.mp h with rfl | h2
    · omega
    · have := ih h2
      simp only [sumValues] at this
      omega

theorem sumValues_pos_exists (l : List (String × Nat)) (h : sumValues l ≠ 0) :
    ∃ kv ∈ l, 0 < kv.2 := by
  induction l with
  | nil => simp [sumValues] at h
  | cons x rest ih =>
    simp only [sumValues, List.map_cons, List.sum_cons] at h
    by_cases hx : 0 < x.2
    · exact ⟨x, List.mem_cons_self x rest, hx⟩
    · have : sumValues rest ≠ 0 := by
        simp only [sumValues]
        omega
      obtain ⟨kv, hm, hp⟩ := ih this
      exact ⟨kv, List.mem_cons_of_mem x hm, hp⟩

theorem maxByFirst_none_iff (l : List (String × Nat)) : maxByFirst l = none ↔ l = [] := by
  cases l with
  | nil => simp [maxByFirst]
  | cons b rest => simp [maxByFirst]



/- ===== C1: confidence bounds and the "none" sentinel ===== -/

/-- C1: for every detector state whose style names avoid the sentinel string
(true of the default catalog and any custom catalog that does not name a style
"No se detectaron citas") and for every input text, `identify_primary_style`
returns a confidence in [0, 1] which is zero exactly when the returned style
is the "none" sentinel. -/
theorem identify_primary_style_confidence_bounds (st : DetectorTables) (text : String)
    (h1 : noCitationsSentinel ∉ st.inTextPatterns.map Prod.fst)
    (h2 : noCitationsSentinel ∉ st.fullCitationPatterns.map Prod.fst) :
    0 ≤ (identifyPrimaryStyle st text).2 ∧ (identifyPrimaryStyle st text).2 ≤ 1 ∧
    ((identifyPrimaryStyle st text).2 = 0 ↔
      (identifyPrimaryStyle st text).1 = noCitationsSentinel) := by
  unfold identifyPrimaryStyle
  by_cases ht : sumValues (detectCitationStyles st text).inText +
      sumValues (detectCitationStyles st text).fullCitation = 0
  · rw [if_pos ht]
    simp
  · rw [if_neg ht]
    rcases hmax : maxByFirst (combineCounts (detectCitationStyles st text)) with _ | sv
    · simp only [hmax]
      simp
    · simp only [hmax]
      have hmem := maxByFirst_mem _ _ hmax
      have hle : sv.2 ≤ sumValues (detectCitationStyles st text).inText +
          sumValues (detectCitationStyles st text).fullCitation := by
        have hv := val_le_sumValues _ _ hmem
        rw [sumValues_combineCounts] at hv
        exact hv
      have hpos : 0 < sv.2 := by
        have hsum : sumValues (combineCounts (detectCitationStyles st text)) ≠ 0 := by
          rw [sumValues_combineCounts]
          exact ht
        obtain ⟨kv, hkv, hkvpos⟩ := sumValues_pos_exists _ hsum
        have := maxByFirst_ge _ _ hmax kv hkv
        omega
      have htotpos : (0 : ℚ) < ((sumValues (detectCitationStyles st text).inText +
          sumValues (detectCitationStyles st text).fullCitation : Nat) : ℚ) := by
        exact_mod_cast Nat.pos_of_ne_zero ht
      have hstyle : sv.1 ≠ noCitationsSentinel := by
        have hkey := combineCounts_keys (detectCitationStyles st text) sv.1
          (List.mem_map_of_mem Prod.fst hmem)
        have hin : (detectCitationStyles st text).inText.map Prod.fst =
            st.inTextPatterns.map Prod.fst := by
          simp [detectCitationStyles, List.map_map, Function.comp]
        have hfull : (detectCitationStyles st text).fullCitation.map Prod.fst =
            st.fullCitationPatterns.map Prod.fst := by
          simp [detectCitationStyles, List.map_map, Function.comp]
        rcases hkey with hk | hk | hk
        · rw [hk]
          decide
        · rw [hin] at hk
          exact fun hcon => h1 (hcon ▸ hk)
        · rw [hfull] at hk
          exact fun hcon => h2 (hcon ▸ hk)
      refine ⟨?_, ?_, ?_⟩
      · positivity
      · rw [div_le_one htotpos]
        exact_mod_cast hle
      · constructor
        · intro hc
          exfalso
          rw [div_eq_zero_iff] at hc
          rcases hc with hc | hc
          · have : (sv.2 : ℚ) ≠ 0 := Nat.cast_ne_zero.mpr (by omega)
            exact this hc
          · exact absurd hc (ne_of_gt htotpos)
        · intro hc
          exact absurd hc hstyle

/-- C1 witness: the bounds instantiated at the default catalog (whose style
names avoid the sentinel) and a concrete text. -/
theorem identify_primary_style_confidence_bounds_witness :
    (noCitationsSentinel ∉ dInTextPatterns.map Prod.fst) ∧
    (0 ≤ (identifyPrimaryStyle defaultDetector "x").2 ∧
     (identifyPrimaryStyle defaultDetector "x").2 ≤ 1 ∧
     ((identifyPrimaryStyle defaultDetector "x").2 = 0 ↔
       (identifyPrimaryStyle defaultDetector "x").1 = noCitationsSentinel)) :=
  ⟨by decide,
   identify_primary_style_confidence_bounds defaultDetector "x" (by decide) (by decide)⟩

/- ===== C3: Chicago fusion ===== -/

/-- The combined counts of the default catalog, computed symbolically: the
seven public styles in insertion order, with the two Chicago sub-style
in-text counts fused into `CHICAGO`. -/
theorem combineCounts_default (text : String) :
    combineCounts (detectCitationStyles defaultDetector text) =
      [("APA", styleSum text (assocGetD dInTextPatterns "APA" []) +
          styleSum text (assocGetD dFullCitationPatterns "APA" [])),
       ("MLA", styleSum text (assocGetD dInTextPatterns "MLA" []) +
          styleSum text (assocGetD dFullCitationPatterns "MLA" [])),
       ("CHICAGO", styleSum text (assocGetD dInTextPatterns "CHICAGO_AUTHOR_DATE" []) +
          styleSum text (assocGetD dInTextPatterns "CHICAGO_NOTES" []) +
          styleSum text (assocGetD dFullCitationPatterns "CHICAGO" [])),
       ("HARVARD", styleSum text (assocGetD dInTextPatterns "HARVARD" []) +
          styleSum text (assocGetD dFullCitationPatterns "HARVARD" [])),
       ("IEEE", styleSum text (assocGetD dInTextPatterns "IEEE" []) +
          styleSum text (assocGetD dFullCitationPatterns "IEEE" [])),
       ("VANCOUVER", styleSum text (assocGetD dInTextPatterns "VANCOUVER" []) +
          styleSum text (assocGetD dFullCitationPatterns "VANCOUVER" [])),
       ("CSE", styleSum text (assocGetD dInTextPatterns "CSE" []) +
          styleSum text (assocGetD dFullCitationPatterns "CSE" []))] := by
  simp [combineCounts, detectCitationStyles, defaultDetector, dInTextPatterns,
        dFullCitationPatterns, insertOrAdd, assocGetD, assocFind]

/-- C3: on the default catalog the combined `CHICAGO` score is exactly the
in-text `CHICAGO_AUTHOR_DATE` count plus the in-text `CHICAGO_NOTES` count
plus the `CHICAGO` full-citation count, and the style returned by
`identify_primary_style` is never one of the two sub-style tags. -/
theorem chicago_fusion_invariant (text : String) :
    assocFind (combineCounts (detectCitationStyles defaultDetector text)) "CHICAGO" =
      some (styleSum text (assocGetD dInTextPatterns "CHICAGO_AUTHOR_DATE" []) +
            styleSum text (assocGetD dInTextPatterns "CHICAGO_NOTES" []) +
            styleSum text (assocGetD dFullCitationPatterns "CHICAGO" [])) ∧
    (identifyPrimaryStyle defaultDetector text).1 ≠ "CHICAGO_AUTHOR_DATE" ∧
    (identifyPrimaryStyle defaultDetector text).1 ≠ "CHICAGO_NOTES" := by
  have hkeys : (combineCounts (detectCitationStyles defaultDetector text)).map Prod.fst =
      ["APA", "MLA", "CHICAGO", "HARVARD", "IEEE", "VANCOUVER", "CSE"] := by
    rw [combineCounts_default]
    simp
  have hnosub : ∀ s, s ∈ (combineCounts (detectCitationStyles defaultDetector text)).map Prod.fst →
      s ≠ "CHICAGO_AUTHOR_DATE" ∧ s ≠ "CHICAGO_NOTES" := by
    rw [hkeys]
    intro s hs
    fin_cases hs <;> exact ⟨by decide, by decide⟩
  refine ⟨?_, ?_, ?_⟩
  · rw [combineCounts_default]
    simp [assocFind]
  all_goals
  · unfold identifyPrimaryStyle
    by_cases ht : sumValues (detectCitationStyles defaultDetector text).inText +
        sumValues (detectCitationStyles defaultDetector text).fullCitation = 0
    · rw [if_pos ht]
      simp [noCitationsSentinel]
    · rw [if_neg ht]
      rcases hmax : maxByFirst (combineCounts (detectCitationStyles defaultDetector text))
        with _ | sv
      · simp only [hmax]
        simp [noCitationsSentinel]
      · simp only [hmax]
        have hmem := maxByFirst_mem _ _ hmax
        have hboth := hnosub sv.1 (List.mem_map_of_mem Prod.fst hmem)
        first
        | exact hboth.1
        | exact hboth.2

/- ===== C6: author-name matching symmetry ===== -/

/-- C6: `_match_author_names` is symmetric in its two arguments. -/
theorem match_author_names_symm (a b : String) :
    matchAuthorNames a b = matchAuthorNames b a := by
  simp only [matchAuthorNames]
  generalize normalizeAuthorName a = x
  generalize normalizeAuthorName b = y
  have e1 : (decide (x = y)) = (decide (y = x)) := by simp [eq_comm]
  have e2 : (decide (firstToken x = firstToken y)) =
      (decide (firstToken y = firstToken x)) := by simp [eq_comm]
  rw [e1, e2]
  generalize strContains x "et al" = p1
  generalize strContains y "et al" = p2
  generalize strContains y (pyStrip (beforeFirst x "et al")) = q1
  generalize strContains x (pyStrip (beforeFirst y "et al")) = q2
  generalize strContains y x = r1
  generalize strContains x y = r2
  generalize decide (y = x) = s1
  generalize decide (firstToken y = firstToken x) = s2
  cases s1 <;> cases p1 <;> cases q1 <;> cases p2 <;> cases q2 <;> cases r1 <;>
    cases r2 <;> cases s2 <;> rfl

/- ===== C7: MLA keys have an empty year ===== -/

/-- C7: every key extracted for style MLA — by the detector's
`_extract_citation_keys` on a text and by the validator's
`_extract_citation_keys` on a citation list — has an empty year component. -/
theorem mla_citation_keys_empty_year (text : String) (citations : List String)
    (k : String × String) :
    (k ∈ dExtractCitationKeys text "MLA" → k.2 = "") ∧
    (k ∈ vExtractCitationKeys citations "MLA" → k.2 = "") := by
  constructor
  · intro hk
    replace hk : k ∈ dedupKeepFirst
        ((reFinditer false "\\((?P<author>[A-Za-z\\-]+(?:\\s[A-Za-z\\-]+)?(?: et al\\.)?)\\s\\d+" text).map
          (fun m => (pyStrip ((getCap m.2 "author").getD ""), "")) ++
         (reFinditer false "(?P<author>[A-Za-z\\-]+(?:\\s[A-Za-z\\-]+)?(?: et al\\.)?)\\s\\(\\d+" text).map
          (fun m => (pyStrip ((getCap m.2 "author").getD ""), ""))) := hk
    rw [mem_dedupKeepFirst, List.mem_append] at hk
    rcases hk with hk | hk <;>
    · obtain ⟨m, _, rfl⟩ := List.mem_map.mp hk
      rfl
  · intro hk
    replace hk : k ∈ citations.flatMap (fun citation =>
        match reSearch false false "\\(([A-Za-z\\-]+(?: et al\\.)?)\\s\\d+" citation with
        | some r => [((getCap r.2.2 "1").getD "", "")]
        | none =>
          match reSearch false false "\\(([A-Za-z\\-]+(?:\\s[A-Za-z\\-]+)?)\\sand\\s([A-Za-z\\-]+(?:\\s[A-Za-z\\-]+)?)\\s\\d+" citation with
          | some r =>
            [(((getCap r.2.2 "1").getD "") ++ " and " ++ ((getCap r.2.2 "2").getD ""), "")]
          | none => []) := hk
    obtain ⟨c, _, hk⟩ := List.mem_flatMap.mp hk
    split at hk
    · rcases List.mem_singleton.mp hk with rfl
      rfl
    · split at hk
      · rcases List.mem_singleton.mp hk with rfl
        rfl
      · cases hk

/-- C7 witness: the MLA key extracted from `"(Smith 25)"` and from the
citation list `["(Smith 25)"]` has an empty year. -/
theorem mla_citation_keys_empty_year_witness :
    ("Smith", "") ∈ dExtractCitationKeys "(Smith 25)" "MLA" ∧
    ("Smith", "") ∈ vExtractCitationKeys ["(Smith 25)"] "MLA" ∧
    (("Smith", "") : String × String).2 = "" :=
  ⟨by decide, by decide,
   (mla_citation_keys_empty_year "(Smith 25)" ["(Smith 25)"] ("Smith", "")).1 (by decide)⟩



/- ===== C4: atomicity of custom pattern registration ===== -/

/-- C4 counterexample: a configuration whose in-text section is a
well-formed dict but whose full-citation section is malformed makes
`_load_custom_patterns` raise after the in-text merge: the load reports
failure, yet the in-text pattern table has been mutated — the loader is
not atomic. -/
theorem load_custom_patterns_partial_mutation :
    (loadCustomPatterns (some ⟨some (.dict [("APA", ["X"])]), some .bad⟩)
      defaultDetector).2 = false ∧
    (loadCustomPatterns (some ⟨some (.dict [("APA", ["X"])]), some .bad⟩)
      defaultDetector).1.inTextPatterns ≠ defaultDetector.inTextPatterns := by
  constructor
  · rfl
  · decide

/-- Behaviour of `add_custom_pattern` on a pattern that fails to compile:
`False` and no mutation. -/
theorem addCustomPattern_none (st : PatternsState) (style ptype pattern : String)
    (h : compileRE pattern = none) :
    addCustomPattern st style ptype pattern = (false, st) := by
  unfold addCustomPattern
  simp only [h]

/-- Behaviour of `add_custom_pattern` on a compiling in-text pattern. -/
theorem addCustomPattern_some_inText (st : PatternsState) (style pattern : String)
    (cp : Bool × RE) (h : compileRE pattern = some cp) :
    addCustomPattern st style "in_text" pattern =
      (true, { st with inTextPatterns := assocAppend st.inTextPatterns style pattern,
                       compiledInText := assocAppend st.compiledInText style cp }) := by
  unfold addCustomPattern
  simp only [h]
  simp

/-- Behaviour of `add_custom_pattern` on a compiling bibliography pattern. -/
theorem addCustomPattern_some_biblio (st : PatternsState) (style pattern : String)
    (cp : Bool × RE) (h : compileRE pattern = some cp) :
    addCustomPattern st style "bibliography" pattern =
      (true, { st with bibliographyPatterns := assocAppend st.bibliographyPatterns style pattern,
                       compiledBibliography := assocAppend st.compiledBibliography style cp }) := by
  unfold addCustomPattern
  simp only [h]
  simp

/-- Behaviour of `add_custom_pattern` on a compiling header pattern. -/
theorem addCustomPattern_some_headers (st : PatternsState) (style pattern : String)
    (cp : Bool × RE) (h : compileRE pattern = some cp) :
    addCustomPattern st style "headers" pattern =
      (true, { st with bibliographyHeaders := assocAppend st.bibliographyHeaders style pattern,
                       compiledHeaders := assocAppend st.compiledHeaders style cp }) := by
  unfold addCustomPattern
  simp only [h]
  simp

/-- Behaviour of `add_custom_pattern` on an unknown pattern type: `False`
and no mutation. -/
theorem addCustomPattern_some_unknown (st : PatternsState) (style ptype pattern : String)
    (cp : Bool × RE) (h : compileRE pattern = some cp) (h1 : ptype ≠ "in_text")
    (h2 : ptype ≠ "bibliography") (h3 : ptype ≠ "headers") :
    addCustomPattern st style ptype pattern = (false, st) := by
  unfold addCustomPattern
  simp only [h]
  rw [if_neg h1, if_neg h2, if_neg h3]

/-- C4 (amended): `add_custom_pattern` is atomic — a compile failure or an
unknown pattern type reports `False` and leaves every table unchanged, and
a success appends the pattern to the requested (style, category) list — and
`_load_custom_patterns` leaves the tables unchanged when the JSON parse
fails or when the in-text section itself is malformed, while a malformed
full-citation section keeps the already-applied in-text merge (the
non-atomic case exhibited by the counterexample). -/
theorem add_custom_pattern_atomic (st : PatternsState) (style ptype pattern : String)
    (es : List (String × List String)) (dt : DetectorTables) :
    ((addCustomPattern st style ptype pattern).1 = false →
      (addCustomPattern st style ptype pattern).2 = st) ∧
    ((addCustomPattern st style ptype pattern).1 = true → ptype = "in_text" →
      (addCustomPattern st style ptype pattern).2.inTextPatterns =
        assocAppend st.inTextPatterns style pattern ∧
      (addCustomPattern st style ptype pattern).2.bibliographyPatterns =
        st.bibliographyPatterns ∧
      (addCustomPattern st style ptype pattern).2.bibliographyHeaders =
        st.bibliographyHeaders) ∧
    ((addCustomPattern st style ptype pattern).1 = true → ptype = "bibliography" →
      (addCustomPattern st style ptype pattern).2.bibliographyPatterns =
        assocAppend st.bibliographyPatterns style pattern ∧
      (addCustomPattern st style ptype pattern).2.inTextPatterns = st.inTextPatterns) ∧
    ((addCustomPattern st style ptype pattern).1 = true → ptype = "headers" →
      (addCustomPattern st style ptype pattern).2.bibliographyHeaders =
        assocAppend st.bibliographyHeaders style pattern ∧
      (addCustomPattern st style ptype pattern).2.inTextPatterns = st.inTextPatterns) ∧
    loadCustomPatterns none dt = (dt, false) ∧
    loadCustomPatterns (some ⟨some .bad, none⟩) dt = (dt, false) ∧
    loadCustomPatterns (some ⟨some (.dict es), some .bad⟩) dt =
      ({ dt with inTextPatterns := mergeSection es dt.inTextPatterns }, false) := by
  refine ⟨?_, ?_, ?_, ?_, rfl, rfl, rfl⟩
  · intro h
    rcases hc : compileRE pattern with _ | cp
    · rw [addCustomPattern_none st style ptype pattern hc]
    · by_cases h1 : ptype = "in_text"
      · subst h1
        rw [addCustomPattern_some_inText st style pattern cp hc] at h
        simp at h
      · by_cases h2 : ptype = "bibliography"
        · subst h2
          rw [addCustomPattern_some_biblio st style pattern cp hc] at h
          simp at h
        · by_cases h3 : ptype = "headers"
          · subst h3
            rw [addCustomPattern_some_headers st style pattern cp hc] at h
            simp at h
          · rw [addCustomPattern_some_unknown st style ptype pattern cp hc h1 h2 h3]
  · intro h hptype
    subst hptype
    rcases hc : compileRE pattern with _ | cp
    · rw [addCustomPattern_none st style "in_text" pattern hc] at h
      simp at h
    · rw [addCustomPattern_some_inText st style pattern cp hc]
      exact ⟨rfl, rfl, rfl⟩
  · intro h hptype
    subst hptype
    rcases hc : compileRE pattern with _ | cp
    · rw [addCustomPattern_none st style "bibliography" pattern hc] at h
      simp at h
    · rw [addCustomPattern_some_biblio st style pattern cp hc]
      exact ⟨rfl, rfl⟩
  · intro h hptype
    subst hptype
    rcases hc : compileRE pattern with _ | cp
    · rw [addCustomPattern_none st style "headers" pattern hc] at h
      simp at h
    · rw [addCustomPattern_some_headers st style pattern cp hc]
      exact ⟨rfl, rfl⟩

/-- C4 witness: the atomicity instantiated at concrete inputs — the
malformed pattern `"[ab"` is rejected without mutation and the well-formed
pattern `"ab"` is appended. -/
theorem add_custom_pattern_atomic_witness :
    (addCustomPattern ⟨[], [], [], [], [], []⟩ "APA" "in_text" "[ab").2 =
      (⟨[], [], [], [], [], []⟩ : PatternsState) ∧
    (addCustomPattern ⟨[], [], [], [], [], []⟩ "APA" "in_text" "ab").2.inTextPatterns =
      assocAppend ([] : List (String × List String)) "APA" "ab" :=
  ⟨(add_custom_pattern_atomic ⟨[], [], [], [], [], []⟩ "APA" "in_text" "[ab" [] defaultDetector).1
     (by decide),
   ((add_custom_pattern_atomic ⟨[], [], [], [], [], []⟩ "APA" "in_text" "ab" [] defaultDetector).2.1
     (by decide) rfl).1⟩

/- ===== C2: whitespace-only input gives the sentinel and empty lists ===== -/

/-- The six ASCII whitespace characters, as a list. -/
def wsChars : List Char := [' ', '\t', '\n', '\r', '\x0b', '\x0c']

/-- Conservative analysis: a pattern every successful match of which must
consume at least one character that no whitespace character can satisfy
(checked against IGNORECASE matching, which subsumes the case-sensitive
mode).  Repetitions, options, anchors, the dot and epsilon contribute
nothing. -/
def reqNonWS : RE → Bool
  | .eps | .dot | .bol | .eol => false
  | .lit c => wsChars.all fun w => !litMatch true c w
  | .cls neg rs => !neg && (wsChars.all fun w => !clsMatch true false rs w)
  | .cat a b => reqNonWS a || reqNonWS b
  | .alt a b => reqNonWS a && reqNonWS b
  | .star _ _ => false
  | .opt _ _ => false
  | .grp _ r => reqNonWS r

theorem pyWS_mem_wsChars (c : Char) (h : pyWS c = true) : c ∈ wsChars := by
  simp only [pyWS, Bool.or_eq_true, decide_eq_true_eq] at h
  rcases h with ((((rfl | rfl) | rfl) | rfl) | rfl) | rfl <;> simp [wsChars]

theorem litMatch_mono (ci : Bool) (p c : Char) (h : litMatch ci p c = true) :
    litMatch true p c = true := by
  cases ci <;> simp_all [litMatch]

theorem clsMatch_mono (ci : Bool) (rs : List (Char × Char)) (c : Char)
    (h : clsMatch ci false rs c = true) : clsMatch true false rs c = true := by
  cases ci <;> simp_all [clsMatch]

theorem mat_none_of_k_none (ci ml : Bool) :
    ∀ (fuel : Nat) (r : RE) (prev : Option Char) (s : List Char) (caps : Caps)
    (k : Option Char → List Char → Caps → Option (Option Char × List Char × Caps)),
    (∀ p2 s2 cp2, s2.IsSuffix s → k p2 s2 cp2 = none) →
    mat ci ml fuel r prev s caps k = none := by
  intro fuel
  induction fuel with
  | zero => intro r prev s caps k hk; rfl
  | succ f ih =>
    intro r prev s caps k hk
    cases r with
    | eps => exact hk prev s caps (List.suffix_refl s)
    | dot =>
      cases s with
      | nil => rfl
      | cons c rest =>
        show (if c = '\n' then none else k (some c) rest caps) = none
        split
        · rfl
        · exact hk (some c) rest caps ⟨[c], rfl⟩
    | lit c0 =>
      cases s with
      | nil => rfl
      | cons c rest =>
        show (if litMatch ci c0 c = true then k (some c) rest caps else none) = none
        split
        · exact hk (some c) rest caps ⟨[c], rfl⟩
        · rfl
    | cls neg rs =>
      cases s with
      | nil => rfl
      | cons c rest =>
        show (if clsMatch ci neg rs c = true then k (some c) rest caps else none) = none
        split
        · exact hk (some c) rest caps ⟨[c], rfl⟩
        · rfl
    | bol =>
      cases prev with
      | none => exact hk none s caps (List.suffix_refl s)
      | some c =>
        show (if (ml && c = '\n') = true then k (some c) s caps else none) = none
        split
        · exact hk (some c) s caps (List.suffix_refl s)
        · rfl
    | eol =>
      cases s with
      | nil => exact hk prev [] caps (List.suffix_refl [])
      | cons c rest =>
        show (if (c = '\n' && (ml || rest.isEmpty)) = true then k prev (c :: rest) caps
              else none) = none
        split
        · exact hk prev (c :: rest) caps (List.suffix_refl _)
        · rfl
    | cat a b =>
      exact ih a prev s caps _ fun p2 s2 cp2 hs =>
        ih b p2 s2 cp2 k fun p3 s3 cp3 hs3 => hk p3 s3 cp3 (hs3.trans hs)
    | alt a b =>
      show (match mat ci ml f a prev s caps k with
            | some res => some res
            | none => mat ci ml f b prev s caps k) = none
      rw [ih a prev s caps k hk, ih b prev s caps k hk]
    | opt lz a =>
      show (if lz = true then _ else _) = none
      split
      · show (match k prev s caps with
              | some res => some res
              | none => mat ci ml f a prev s caps k) = none
        rw [hk prev s caps (List.suffix_refl s), ih a prev s caps k hk]
      · show (match mat ci ml f a prev s caps k with
              | some res => some res
              | none => k prev s caps) = none
        rw [ih a prev s caps k hk, hk prev s caps (List.suffix_refl s)]
    | star lz a =>
      show (if lz = true then _ else _) = none
      split
      · show (match k prev s caps with
              | some res => some res
              | none => mat ci ml f a prev s caps _) = none
        rw [hk prev s caps (List.suffix_refl s)]
        exact ih a prev s caps _ fun p2 s2 cp2 hs => by
          show (if s2.length < s.length then mat ci ml f (.star lz a) p2 s2 cp2 k
                else none) = none
          split
          · exact ih (.star lz a) p2 s2 cp2 k fun p3 s3 cp3 hs3 => hk p3 s3 cp3 (hs3.trans hs)
          · rfl
      · show (match mat ci ml f a prev s caps _ with
              | some res => some res
              | none => k prev s caps) = none
        rw [ih a prev s caps _ fun p2 s2 cp2 hs => ?_, hk prev s caps (List.suffix_refl s)]
        show (if s2.length < s.length then mat ci ml f (.star lz a) p2 s2 cp2 k
              else none) = none
        split
        · exact ih (.star lz a) p2 s2 cp2 k fun p3 s3 cp3 hs3 => hk p3 s3 cp3 (hs3.trans hs)
        · rfl
    | grp nm a =>
      exact ih a prev s caps _ fun p2 s2 cp2 hs =>
        hk p2 s2 _ hs

theorem mat_reqNonWS_none (ci ml : Bool) :
    ∀ (fuel : Nat) (r : RE) (prev : Option Char) (s : List Char) (caps : Caps)
    (k : Option Char → List Char → Caps → Option (Option Char × List Char × Caps)),
    (∀ c ∈ s, pyWS c = true) → reqNonWS r = true →
    mat ci ml fuel r prev s caps k = none := by
  intro fuel
  induction fuel with
  | zero => intro r prev s caps k hws hreq; rfl
  | succ f ih =>
    intro r prev s caps k hws hreq
    cases r with
    | eps => simp [reqNonWS] at hreq
    | dot => simp [reqNonWS] at hreq
    | bol => simp [reqNonWS] at hreq
    | eol => simp [reqNonWS] at hreq
    | star lz a => simp [reqNonWS] at hreq
    | opt lz a => simp [reqNonWS] at hreq
    | lit c0 =>
      cases s with
      | nil => rfl
      | cons c rest =>
        show (if litMatch ci c0 c = true then k (some c) rest caps else none) = none
        have hc := hws c (List.mem_cons_self c rest)
        have hall : ∀ w ∈ wsChars, litMatch true c0 w = false := by
          simpa [reqNonWS, List.all_eq_true] using hreq
        rw [if_neg]
        intro hcon
        have hm := litMatch_mono ci c0 c hcon
        rw [hall c (pyWS_mem_wsChars c hc)] at hm
        cases hm
    | cls neg rs =>
      cases s with
      | nil => rfl
      | cons c rest =>
        show (if clsMatch ci neg rs c = true then k (some c) rest caps else none) = none
        simp only [reqNonWS, Bool.and_eq_true, Bool.not_eq_true'] at hreq
        obtain ⟨hneg, hall0⟩ := hreq
        subst hneg
        have hc := hws c (List.mem_cons_self c rest)
        have hall : ∀ w ∈ wsChars, clsMatch true false rs w = false := by
          simpa [List.all_eq_true] using hall0
        rw [if_neg]
        intro hcon
        have hm := clsMatch_mono ci rs c hcon
        rw [hall c (pyWS_mem_wsChars c hc)] at hm
        cases hm
    | cat a b =>
      simp only [reqNonWS, Bool.or_eq_true] at hreq
      by_cases hA : reqNonWS a = true
      · exact ih a prev s caps _ hws hA
      · have hB : reqNonWS b = true := hreq.resolve_left hA
        show mat ci ml f a prev s caps _ = none
        exact mat_none_of_k_none ci ml f a prev s caps _ fun p2 s2 cp2 hs =>
          ih b p2 s2 cp2 k (fun c hcs => hws c (hs.subset hcs)) hB
    | alt a b =>
      simp only [reqNonWS, Bool.and_eq_true] at hreq
      show (match mat ci ml f a prev s caps k with
            | some res => some res
            | none => mat ci ml f b prev s caps k) = none
      rw [ih a prev s caps k hws hreq.1, ih b prev s caps k hws hreq.2]
    | grp nm a =>
      simp only [reqNonWS] at hreq
      exact ih a prev s caps _ hws hreq



theorem scanAll_succ (ci ml : Bool) (r : RE) (f : Nat) (prev : Option Char)
    (s : List Char) :
    scanAll ci ml r (f + 1) prev s =
      match matchHere ci ml r prev s with
      | some (n, p2, s2, cp2) =>
        if n = 0 then
          ("", cp2) ::
            (match s with
             | [] => []
             | c :: rest => scanAll ci ml r f (some c) rest)
        else (String.mk (s.take n), cp2) :: scanAll ci ml r f p2 s2
      | none =>
        match s with
        | [] => []
        | c :: rest => scanAll ci ml r f (some c) rest := rfl

theorem scanAll_nil_of_reqNonWS (ci ml : Bool) (r : RE) (hreq : reqNonWS r = true) :
    ∀ (fuel : Nat) (prev : Option Char) (s : List Char),
    (∀ c ∈ s, pyWS c = true) → scanAll ci ml r fuel prev s = [] := by
  intro fuel
  induction fuel with
  | zero => intro prev s hws; rfl
  | succ f ih =>
    intro prev s hws
    have hmh : matchHere ci ml r prev s = none := by
      unfold matchHere
      rw [mat_reqNonWS_none ci ml _ r prev s [] _ hws hreq]
    rw [scanAll_succ, hmh]
    cases s with
    | nil => rfl
    | cons c rest =>
      exact ih (some c) rest fun c2 hc2 => hws c2 (List.mem_cons_of_mem c hc2)

/-- A pattern is whitespace-safe when it fails to compile (no matches at
all) or when its syntax tree passes the `reqNonWS` analysis. -/
def wsSafe (p : String) : Bool :=
  match compileRE p with
  | none => true
  | some pr => reqNonWS pr.2

theorem reFindallCount_zero_of_wsSafe (ml : Bool) (p text : String)
    (h1 : wsSafe p = true) (h2 : ∀ c ∈ text.toList, pyWS c = true) :
    reFindallCount ml p text = 0 := by
  unfold reFindallCount
  unfold wsSafe at h1
  rcases hc : compileRE p with _ | pr
  · rfl
  · obtain ⟨ci, r⟩ := pr
    rw [hc] at h1
    have h1' : reqNonWS r = true := h1
    show (scanAll ci ml r (text.length + 1) none text.toList).length = 0
    rw [scanAll_nil_of_reqNonWS ci ml r h1' (text.length + 1) none text.toList h2]
    rfl

set_option maxRecDepth 20000 in
/-- Every pattern of the default detector catalog passes the
whitespace-safety analysis. -/
theorem default_patterns_wsSafe :
    ((dInTextPatterns.flatMap Prod.snd ++ dFullCitationPatterns.flatMap Prod.snd).all
      wsSafe) = true := by decide

/-- C2: `identify_primary_style` returns the "none" sentinel with zero
confidence on every whitespace-only text (the empty string included), and
`extract_citations` then returns empty in-text and bibliography lists.
(The embedding is a total function, so the "never raises" part of the
claim holds by construction.) -/
theorem identify_primary_style_whitespace_none (text : String)
    (h : ∀ c ∈ text.toList, pyWS c = true) :
    identifyPrimaryStyle defaultDetector text = (noCitationsSentinel, 0) ∧
    dExtractCitations defaultDetector text = ⟨[], []⟩ := by
  have hz : ∀ p ∈ dInTextPatterns.flatMap Prod.snd ++ dFullCitationPatterns.flatMap Prod.snd,
      reFindallCount true p text = 0 := fun p hp =>
    reFindallCount_zero_of_wsSafe true p text
      (List.all_eq_true.mp default_patterns_wsSafe p hp) h
  have hsty : ∀ (tbl : List (String × List String)),
      (∀ sp ∈ tbl, ∀ p ∈ sp.2, reFindallCount true p text = 0) →
      sumValues (tbl.map fun sp => (sp.1, styleSum text sp.2)) = 0 := by
    intro tbl htbl
    simp only [sumValues, List.map_map]
    refine List.sum_eq_zero ?_
    intro x hx
    simp only [List.mem_map, Function.comp] at hx
    obtain ⟨sp, hsp, rfl⟩ := hx
    show styleSum text sp.2 = 0
    simp only [styleSum]
    refine List.sum_eq_zero ?_
    intro y hy
    obtain ⟨p, hp, rfl⟩ := List.mem_map.mp hy
    exact htbl sp hsp p hp
  have htot : sumValues (detectCitationStyles defaultDetector text).inText +
      sumValues (detectCitationStyles defaultDetector text).fullCitation = 0 := by
    have h1 := hsty dInTextPatterns fun sp hsp p hp =>
      hz p (List.mem_append_left _ (List.mem_flatMap.mpr ⟨sp, hsp, hp⟩))
    have h2 := hsty dFullCitationPatterns fun sp hsp p hp =>
      hz p (List.mem_append_right _ (List.mem_flatMap.mpr ⟨sp, hsp, hp⟩))
    show sumValues (dInTextPatterns.map fun sp => (sp.1, styleSum text sp.2)) +
      sumValues (dFullCitationPatterns.map fun sp => (sp.1, styleSum text sp.2)) = 0
    omega
  have hident : identifyPrimaryStyle defaultDetector text = (noCitationsSentinel, 0) := by
    unfold identifyPrimaryStyle
    rw [if_pos htot]
  refine ⟨hident, ?_⟩
  simp [dExtractCitations, hident]

/-- C2 witness: the sentinel and empty extraction at the whitespace-only
text `" \t\n"` (the empty string falls under the same theorem). -/
theorem identify_primary_style_whitespace_none_witness :
    identifyPrimaryStyle defaultDetector " \t\n" = (noCitationsSentinel, 0) ∧
    dExtractCitations defaultDetector " \t\n" = ⟨[], []⟩ :=
  identify_primary_style_whitespace_none " \t\n" (by decide)


/- ===== C8: scenario B ===== -/

theorem identifyPrimaryStyle_eq_of (st : DetectorTables) (text sty : String)
    (n d : Nat)
    (hmax : maxByFirst (combineCounts (detectCitationStyles st text)) = some (sty, n))
    (hsum : sumValues (detectCitationStyles st text).inText +
      sumValues (detectCitationStyles st text).fullCitation = d)
    (hd : d ≠ 0) :
    identifyPrimaryStyle st text = (sty, (n : ℚ) / (d : ℚ)) := by
  unfold identifyPrimaryStyle
  rw [hsum, hmax, if_neg hd]

set_option maxRecDepth 100000 in
/-- C8: on the input text "(Smith 25)" the detector identifies the primary
style `MLA` with confidence exactly 1, and citation-key extraction with
style `MLA` returns exactly `[("Smith", "")]`. -/
theorem scenario_b_smith_mla :
    identifyPrimaryStyle defaultDetector "(Smith 25)" = ("MLA", 1) ∧
    dExtractCitationKeys "(Smith 25)" "MLA" = [("Smith", "")] := by
  have hdet : detectCitationStyles defaultDetector "(Smith 25)" =
      ⟨[("APA", 0), ("MLA", 1), ("CHICAGO_AUTHOR_DATE", 0), ("CHICAGO_NOTES", 0),
        ("HARVARD", 0), ("IEEE", 0), ("VANCOUVER", 0), ("CSE", 0)],
       [("APA", 0), ("MLA", 0), ("CHICAGO", 0), ("HARVARD", 0), ("IEEE", 0),
        ("VANCOUVER", 0), ("CSE", 0)]⟩ := by decide
  refine ⟨?_, by decide⟩
  have hmax : maxByFirst (combineCounts (detectCitationStyles defaultDetector "(Smith 25)")) =
      some ("MLA", 1) := by rw [hdet]; decide
  have hsum : sumValues (detectCitationStyles defaultDetector "(Smith 25)").inText +
      sumValues (detectCitationStyles defaultDetector "(Smith 25)").fullCitation = 1 := by
    rw [hdet]; decide
  rw [identifyPrimaryStyle_eq_of defaultDetector "(Smith 25)" "MLA" 1 1 hmax hsum
    (by decide)]
  norm_num



/- ===== C5: deduplication and ordering of extraction results ===== -/

set_option maxRecDepth 100000 in
/-- C5 (counterexample): on the text "(Zed 25) (Abel 30)" the detector
collects the MLA matches in text order `["(Zed 25)", "(Abel 30)"]`, but
`extract_citations` returns them alphabetically sorted as
`["(Abel 30)", "(Zed 25)"]` - not in first-seen order: the source applies
`sorted(...)` after deduplicating. -/
theorem extraction_first_seen_counterexample :
    dCollectInText defaultDetector "(Zed 25) (Abel 30)" "MLA" =
      ["(Zed 25)", "(Abel 30)"] ∧
    dExtractCitations defaultDetector "(Zed 25) (Abel 30)" =
      ⟨["(Abel 30)", "(Zed 25)"], []⟩ ∧
    (dExtractCitations defaultDetector "(Zed 25) (Abel 30)").enTexto ≠
      dedupKeepFirst (dCollectInText defaultDetector "(Zed 25) (Abel 30)" "MLA") := by
  have h1 : dCollectInText defaultDetector "(Zed 25) (Abel 30)" "MLA" =
      ["(Zed 25)", "(Abel 30)"] := by decide
  have hdet : detectCitationStyles defaultDetector "(Zed 25) (Abel 30)" =
      ⟨[("APA", 0), ("MLA", 2), ("CHICAGO_AUTHOR_DATE", 0), ("CHICAGO_NOTES", 0),
        ("HARVARD", 0), ("IEEE", 0), ("VANCOUVER", 0), ("CSE", 0)],
       [("APA", 0), ("MLA", 0), ("CHICAGO", 0), ("HARVARD", 0), ("IEEE", 0),
        ("VANCOUVER", 0), ("CSE", 0)]⟩ := by decide
  have hpr : identifyPrimaryStyle defaultDetector "(Zed 25) (Abel 30)" =
      ("MLA", ((2 : Nat) : ℚ) / ((2 : Nat) : ℚ)) := by
    refine identifyPrimaryStyle_eq_of defaultDetector "(Zed 25) (Abel 30)" "MLA" 2 2
      ?_ ?_ (by decide)
    · rw [hdet]; decide
    · rw [hdet]; decide
  have h2 : dExtractCitations defaultDetector "(Zed 25) (Abel 30)" =
      ⟨["(Abel 30)", "(Zed 25)"], []⟩ := by
    simp only [dExtractCitations, hpr]
    rw [if_neg (by decide : ¬(("MLA", ((2 : Nat) : ℚ) / ((2 : Nat) : ℚ)).1 =
      noCitationsSentinel))]
    rw [h1]
    decide
  refine ⟨h1, h2, ?_⟩
  rw [h2, h1]
  decide

theorem enTexto_mk (a b : List String) : (ExtractedCitations.mk a b).enTexto = a := rfl

theorem bibliograficas_mk (a b : List String) :
    (ExtractedCitations.mk a b).bibliograficas = b := rfl

/-- C5 (amended): the extractor's in-text extraction deduplicates while
preserving first-seen order (its result has no duplicates, is a sublist of
the collected matches in collection order, and keeps exactly the collected
elements), and the detector's `extract_citations` returns duplicate-free
lists as well (they are, however, sorted rather than in first-seen order;
see the counterexample). -/
theorem extraction_dedup_amended (text style : String) :
    (eExtractInTextCitations text style).Nodup ∧
    (eExtractInTextCitations text style).Sublist (eCollectInText text style) ∧
    (∀ s, s ∈ eExtractInTextCitations text style ↔ s ∈ eCollectInText text style) ∧
    (dExtractCitations defaultDetector text).enTexto.Nodup ∧
    (dExtractCitations defaultDetector text).bibliograficas.Nodup := by
  refine ⟨dedupKeepFirst_nodup _, dedupKeepFirst_sublist _,
    fun s => mem_dedupKeepFirst _ s, ?_, ?_⟩
  · unfold dExtractCitations
    by_cases hc : (identifyPrimaryStyle defaultDetector text).1 = noCitationsSentinel
    · rw [if_pos hc, enTexto_mk]
      exact List.nodup_nil
    · rw [if_neg hc, enTexto_mk]
      exact pySortStrings_nodup _ (dedupKeepFirst_nodup _)
  · unfold dExtractCitations
    by_cases hc : (identifyPrimaryStyle defaultDetector text).1 = noCitationsSentinel
    · rw [if_pos hc, bibliograficas_mk]
      exact List.nodup_nil
    · rw [if_neg hc, bibliograficas_mk]
      exact pySortStrings_nodup _ (dedupKeepFirst_nodup _)



/- ===== C9: the bibliography validity filter ===== -/

theorem isValidCitation_biblio (e style : String)
    (hv : isValidCitation e style "bibliography" = true) :
    20 ≤ e.length ∧ e.length ≤ 1000 ∧
    reSearch false false "[.!?]$" e ≠ none ∧
    (style ≠ "MLA" → reSearch false false "\\d\x7b4\x7d" e ≠ none) ∧
    ((style = "IEEE" ∨ style = "VANCOUVER") →
      reSearch false false "^\\[\\d+\\]|\\d+\\." e ≠ none) ∧
    ((style = "APA" ∨ style = "MLA" ∨ style = "CHICAGO" ∨ style = "HARVARD") →
      reSearch false false "^[A-Za-zÀ-ÿ\\-]+," e ≠ none) := by
  unfold isValidCitation at hv
  rw [if_neg (by decide : ¬(("bibliography" : String) = "in_text")),
    if_pos (rfl : ("bibliography" : String) = "bibliography")] at hv
  split at hv
  · exact Bool.noConfusion hv
  split at hv
  · exact Bool.noConfusion hv
  rename_i hterm
  split at hv
  · exact Bool.noConfusion hv
  rename_i hyear
  split at hv
  · exact Bool.noConfusion hv
  rename_i hnum
  split at hv
  · exact Bool.noConfusion hv
  rename_i hauth
  split at hv
  · exact Bool.noConfusion hv
  rename_i h20
  split at hv
  · exact Bool.noConfusion hv
  rename_i h1000
  exact ⟨by omega, by omega, hterm, fun hm hc => hyear ⟨hm, hc⟩,
    fun hs hc => hnum ⟨hs, hc⟩, fun hs hc => hauth ⟨hs, hc⟩⟩

/-- C9 (amended): every string returned by
`extract_bibliography_citations` has length between 20 and 1000, ends in
terminal punctuation, contains a four-digit year unless the style is MLA,
and passes the leading-shape searches the source actually applies:
`^[A-Za-zÀ-ÿ\-]+,` (any leading letter, lowercase included) for
APA/MLA/CHICAGO/HARVARD and `^\[\d+\]|\d+\.` for IEEE/VANCOUVER. -/
theorem bibliography_filter_amended (text style e : String)
    (h : e ∈ eExtractBibliographyCitations text style) :
    20 ≤ e.length ∧ e.length ≤ 1000 ∧
    reSearch false false "[.!?]$" e ≠ none ∧
    (style ≠ "MLA" → reSearch false false "\\d\x7b4\x7d" e ≠ none) ∧
    ((style = "IEEE" ∨ style = "VANCOUVER") →
      reSearch false false "^\\[\\d+\\]|\\d+\\." e ≠ none) ∧
    ((style = "APA" ∨ style = "MLA" ∨ style = "CHICAGO" ∨ style = "HARVARD") →
      reSearch false false "^[A-Za-zÀ-ÿ\\-]+," e ≠ none) := by
  refine isValidCitation_biblio e style ?_
  unfold eExtractBibliographyCitations at h
  split at h
  · exact absurd h (List.not_mem_nil e)
  · have hp := (List.mem_filter.mp h).2
    rw [Bool.and_eq_true] at hp
    exact hp.2

/-- C9 witness: the amended filter facts at a concrete APA extraction. -/
theorem bibliography_filter_amended_witness :
    ("smith, J. (2020). Novel methods in citation analysis. Academic Press." ∈
      eExtractBibliographyCitations
        "Body text.\n\nsmith, J. (2020). Novel methods in citation analysis. Academic Press."
        "APA") ∧
    (20 ≤ ("smith, J. (2020). Novel methods in citation analysis. Academic Press." : String).length ∧
     ("smith, J. (2020). Novel methods in citation analysis. Academic Press." : String).length ≤ 1000 ∧
     reSearch false false "[.!?]$"
       "smith, J. (2020). Novel methods in citation analysis. Academic Press." ≠ none ∧
     (("APA" : String) ≠ "MLA" → reSearch false false "\\d\x7b4\x7d"
       "smith, J. (2020). Novel methods in citation analysis. Academic Press." ≠ none) ∧
     ((("APA" : String) = "IEEE" ∨ ("APA" : String) = "VANCOUVER") →
       reSearch false false "^\\[\\d+\\]|\\d+\\."
         "smith, J. (2020). Novel methods in citation analysis. Academic Press." ≠ none) ∧
     ((("APA" : String) = "APA" ∨ ("APA" : String) = "MLA" ∨ ("APA" : String) = "CHICAGO" ∨
        ("APA" : String) = "HARVARD") →
       reSearch false false "^[A-Za-zÀ-ÿ\\-]+,"
         "smith, J. (2020). Novel methods in citation analysis. Academic Press." ≠ none)) :=
  ⟨by decide,
   bibliography_filter_amended
     "Body text.\n\nsmith, J. (2020). Novel methods in citation analysis. Academic Press."
     "APA" "smith, J. (2020). Novel methods in citation analysis. Academic Press."
     (by decide)⟩

/-- The C9 claim's leading-shape requirement as worded by the spec: the
entry starts with a capitalized word followed by a comma. -/
def specCapitalizedWordComma (e : String) : Bool :=
  (reSearch false false "^[A-Z][A-Za-z\\-]*," e).isSome

/-- C9 (counterexample): an APA bibliography entry beginning with a
lowercase author name is returned by `extract_bibliography_citations` -
the source's leading-shape character class `[A-Za-zÀ-ÿ\-]` accepts
lowercase letters - while the claimed "starts with a capitalized word
followed by a comma" predicate rejects it. -/
theorem bibliography_filter_counterexample :
    eExtractBibliographyCitations
      "Body text.\n\nsmith, J. (2020). Novel methods in citation analysis. Academic Press."
      "APA" =
      ["smith, J. (2020). Novel methods in citation analysis. Academic Press."] ∧
    specCapitalizedWordComma
      "smith, J. (2020). Novel methods in citation analysis. Academic Press." = false := by
  refine ⟨by decide, by decide⟩



/- ===== C10: the extractor's APA default on citation-free text ===== -/

theorem assocFind_mem (l : List (String × Nat)) (k : String) (v : Nat)
    (h : assocFind l k = some v) : ∃ kv ∈ l, kv.2 = v := by
  unfold assocFind at h
  cases hf : l.find? (fun kv => kv.1 = k) with
  | none => rw [hf] at h; exact Option.noConfusion h
  | some kv =>
    rw [hf] at h
    injection h with h2
    exact ⟨kv, List.mem_of_find?_eq_some hf, h2⟩

theorem assocGetD_zero (l : List (String × Nat)) (k : String)
    (h : ∀ kv ∈ l, kv.2 = 0) : assocGetD l k 0 = 0 := by
  unfold assocGetD
  cases hf : assocFind l k with
  | none => rfl
  | some v =>
    obtain ⟨kv, hm, hv⟩ := assocFind_mem l k v hf
    show v = 0
    exact hv ▸ h kv hm

theorem assocPop_fst (l : List (String × Nat)) (k : String) :
    (assocPop l k).1 = assocGetD l k 0 := rfl

theorem assocPop_snd (l : List (String × Nat)) (k : String) :
    (assocPop l k).2 = l.filter (fun kv => kv.1 ≠ k) := rfl

theorem mem_assocSet (l : List (String × Nat)) (k : String) (v : Nat)
    (kv : String × Nat) (h : kv ∈ assocSet l k v) : kv.2 = v ∨ kv ∈ l := by
  induction l with
  | nil =>
    unfold assocSet at h
    rw [List.mem_singleton] at h
    exact Or.inl (h ▸ rfl)
  | cons hd tl ih =>
    obtain ⟨k0, v0⟩ := hd
    unfold assocSet at h
    split at h
    · rcases List.mem_cons.mp h with rfl | hm
      · exact Or.inl rfl
      · exact Or.inr (List.mem_cons_of_mem _ hm)
    · rcases List.mem_cons.mp h with rfl | hm
      · exact Or.inr (List.mem_cons_self _ _)
      · rcases ih hm with h1 | h2
        · exact Or.inl h1
        · exact Or.inr (List.mem_cons_of_mem _ h2)

theorem eDetectChicagoFold_zero (counts : List (String × Nat))
    (h : ∀ kv ∈ counts, kv.2 = 0) :
    ∀ kv ∈ eDetectChicagoFold counts, kv.2 = 0 := by
  unfold eDetectChicagoFold
  split
  · intro kv hkv
    have hfilter1 : ∀ kv2 ∈ (assocPop counts "CHICAGO_AUTHOR_DATE").2, kv2.2 = 0 := by
      intro kv2 hkv2
      rw [assocPop_snd] at hkv2
      exact h kv2 (List.mem_filter.mp hkv2).1
    rcases mem_assocSet _ _ _ kv hkv with h0 | hm
    · have had : (assocPop counts "CHICAGO_AUTHOR_DATE").1 = 0 := by
        rw [assocPop_fst]; exact assocGetD_zero _ _ h
      have hnt : (assocPop (assocPop counts "CHICAGO_AUTHOR_DATE").2 "CHICAGO_NOTES").1 = 0 := by
        rw [assocPop_fst]; exact assocGetD_zero _ _ hfilter1
      rw [h0, had, hnt]
    · rw [assocPop_snd] at hm
      exact hfilter1 kv (List.mem_filter.mp hm).1
  · exact h

theorem eDetectCitationStyle_apa (text : String)
    (h : ∀ kv ∈ eDetectStyleCounts text, kv.2 = 0) :
    eDetectCitationStyle text = "APA" := by
  unfold eDetectCitationStyle
  cases hm : maxByFirst (eDetectChicagoFold (eDetectStyleCounts text)) with
  | none => rfl
  | some sv =>
    have hz : sv.2 = 0 :=
      eDetectChicagoFold_zero (eDetectStyleCounts text) h sv (maxByFirst_mem _ sv hm)
    show (if sv.2 > 0 then sv.1 else "APA") = "APA"
    rw [hz, if_neg (by decide : ¬((0 : Nat) > 0))]

/-- C10: whenever every style score computed by `_detect_citation_style`
is zero (no bibliography header and no in-text pattern matched),
the extractor returns the default style `"APA"`, and
`extract_all_citations` without an explicit style therefore proceeds with
the APA patterns rather than any "none" sentinel. -/
theorem detect_style_default_apa (text : String)
    (h : ∀ kv ∈ eDetectStyleCounts text, kv.2 = 0) :
    eDetectCitationStyle text = "APA" ∧
    eExtractAllCitations text none =
      ⟨eExtractInTextCitations text "APA", eExtractBibliographyCitations text "APA"⟩ := by
  have hsty := eDetectCitationStyle_apa text h
  refine ⟨hsty, ?_⟩
  unfold eExtractAllCitations
  rw [hsty]

set_option maxRecDepth 100000 in
/-- C10 witness: the APA default at the citation-free text "hello". -/
theorem detect_style_default_apa_witness :
    (∀ kv ∈ eDetectStyleCounts "hello", kv.2 = 0) ∧
    (eDetectCitationStyle "hello" = "APA" ∧
     eExtractAllCitations "hello" none =
       ⟨eExtractInTextCitations "hello" "APA", eExtractBibliographyCitations "hello" "APA"⟩) :=
  ⟨by decide, detect_style_default_apa "hello" (by decide)⟩


end Cite
